import Mathlib

/-!
Verification of the job-queue / pipeline-runner core of the Audio-Processor
repository (src/app/pipeline/runner.py), against its natural-language spec.

Embedding conventions:
* Python/JSON values are modelled by `PyVal` (numbers split into `int` and
  `float`, floats modelled exactly as rationals); Python dicts are modelled as
  insertion-ordered association lists with unique keys.
* The module-level mutable state of runner.py (`_jobs`, `_queue`,
  `_processed_hashes`, `_job_to_hash`, `_queue_paused`, `_current_job_id`) is
  the record `RunnerState`; every runner function is a pure state transformer.
* Concurrency is externalised into oracles: `run_pipeline` polls the shared
  `cancelled` flag at six call sites (runner.py lines 459, 474, 481, 496, 504
  and 519, in that order); the value the i-th poll observes is `canc i`
  (concurrent `cancel_job` calls are what make it become true).  Stage
  executors (external collaborators, spec section 6) are oracles `StageRun`:
  the progress reports they issue, the wall-clock readings behind the ETA
  formula, and whether they raise.  I/O failures of persistence are oracle
  booleans.
-/

namespace AudioPipeline

/-- A Python/JSON value as stored in runner.py's dicts and dataclass fields. -/
inductive PyVal where
  | none : PyVal
  | bool : Bool → PyVal
  | int : Int → PyVal
  | float : Rat → PyVal
  | str : String → PyVal
  | list : List PyVal → PyVal
  | dict : List (String × PyVal) → PyVal
deriving Repr

mutual

/-- Decidable equality on `PyVal` (hand-rolled: the nested lists defeat the
automatic derivation). -/
def PyVal.decEq (a b : PyVal) : Decidable (a = b) :=
  match a, b with
  | .none, .none => .isTrue rfl
  | .bool x, .bool y =>
    match inferInstanceAs (Decidable (x = y)) with
    | .isTrue h => .isTrue (h ▸ rfl)
    | .isFalse h => .isFalse (fun hh => h (PyVal.bool.inj hh))
  | .int x, .int y =>
    match inferInstanceAs (Decidable (x = y)) with
    | .isTrue h => .isTrue (h ▸ rfl)
    | .isFalse h => .isFalse (fun hh => h (PyVal.int.inj hh))
  | .float x, .float y =>
    match inferInstanceAs (Decidable (x = y)) with
    | .isTrue h => .isTrue (h ▸ rfl)
    | .isFalse h => .isFalse (fun hh => h (PyVal.float.inj hh))
  | .str x, .str y =>
    match inferInstanceAs (Decidable (x = y)) with
    | .isTrue h => .isTrue (h ▸ rfl)
    | .isFalse h => .isFalse (fun hh => h (PyVal.str.inj hh))
  | .list xs, .list ys =>
    match PyVal.decEqList xs ys with
    | .isTrue h => .isTrue (h ▸ rfl)
    | .isFalse h => .isFalse (fun hh => h (PyVal.list.inj hh))
  | .dict xs, .dict ys =>
    match PyVal.decEqDict xs ys with
    | .isTrue h => .isTrue (h ▸ rfl)
    | .isFalse h => .isFalse (fun hh => h (PyVal.dict.inj hh))
  | .none, .bool _ | .none, .int _ | .none, .float _ | .none, .str _
  | .none, .list _ | .none, .dict _
  | .bool _, .none | .bool _, .int _ | .bool _, .float _ | .bool _, .str _
  | .bool _, .list _ | .bool _, .dict _
  | .int _, .none | .int _, .bool _ | .int _, .float _ | .int _, .str _
  | .int _, .list _ | .int _, .dict _
  | .float _, .none | .float _, .bool _ | .float _, .int _ | .float _, .str _
  | .float _, .list _ | .float _, .dict _
  | .str _, .none | .str _, .bool _ | .str _, .int _ | .str _, .float _
  | .str _, .list _ | .str _, .dict _
  | .list _, .none | .list _, .bool _ | .list _, .int _ | .list _, .float _
  | .list _, .str _ | .list _, .dict _
  | .dict _, .none | .dict _, .bool _ | .dict _, .int _ | .dict _, .float _
  | .dict _, .str _ | .dict _, .list _ =>
    .isFalse (fun h => PyVal.noConfusion h)

/-- Decidable equality on lists of `PyVal`. -/
def PyVal.decEqList (xs ys : List PyVal) : Decidable (xs = ys) :=
  match xs, ys with
  | [], [] => .isTrue rfl
  | [], _ :: _ => .isFalse (fun h => List.noConfusion h)
  | _ :: _, [] => .isFalse (fun h => List.noConfusion h)
  | x :: xs, y :: ys =>
    match PyVal.decEq x y with
    | .isFalse h1 => .isFalse (fun hh => h1 (List.cons.inj hh).1)
    | .isTrue h1 =>
      match PyVal.decEqList xs ys with
      | .isTrue h2 => .isTrue (by rw [h1, h2])
      | .isFalse h2 => .isFalse (fun hh => h2 (List.cons.inj hh).2)

/-- Decidable equality on string-keyed `PyVal` association lists. -/
def PyVal.decEqDict (xs ys : List (String × PyVal)) : Decidable (xs = ys) :=
  match xs, ys with
  | [], [] => .isTrue rfl
  | [], _ :: _ => .isFalse (fun h => List.noConfusion h)
  | _ :: _, [] => .isFalse (fun h => List.noConfusion h)
  | (k1, v1) :: xs, (k2, v2) :: ys =>
    match inferInstanceAs (Decidable (k1 = k2)) with
    | .isFalse h1 =>
      .isFalse (fun hh => h1 (congrArg Prod.fst (List.cons.inj hh).1))
    | .isTrue h1 =>
      match PyVal.decEq v1 v2 with
      | .isFalse hv =>
        .isFalse (fun hh => hv (congrArg Prod.snd (List.cons.inj hh).1))
      | .isTrue hv =>
        match PyVal.decEqDict xs ys with
        | .isTrue h2 => .isTrue (by rw [h1, hv, h2])
        | .isFalse h2 => .isFalse (fun hh => h2 (List.cons.inj hh).2)

end

instance : DecidableEq PyVal := PyVal.decEq

/-- Python truthiness of a value (`bool(v)`). -/
def PyVal.truthy : PyVal → Bool
  | .none => false
  | .bool b => b
  | .int n => n != 0
  | .float q => q != 0
  | .str s => s != ""
  | .list xs => !xs.isEmpty
  | .dict kvs => !kvs.isEmpty

/-- Whether a value is a Python dict. -/
def PyVal.isDict : PyVal → Bool
  | .dict _ => true
  | _ => false

/-- `d.get(k, dflt)` on an association-list dict. -/
def pyGetD (d : List (String × PyVal)) (k : String) (dflt : PyVal) : PyVal :=
  match d.find? (fun p => p.1 == k) with
  | some p => p.2
  | Option.none => dflt

/-- `d.get(k)` (default `None`). -/
def pyGet (d : List (String × PyVal)) (k : String) : PyVal :=
  pyGetD d k PyVal.none

/-- `d[k] = v` on an insertion-ordered dict: update in place, else append. -/
def setKey {α : Type} : List (String × α) → String → α → List (String × α)
  | [], k, v => [(k, v)]
  | (k', v') :: rest, k, v =>
    if k' = k then (k, v) :: rest else (k', v') :: setKey rest k v

/-- Lookup in an association list (`d.get(k)` returning `Option`). -/
def lookupKey {α : Type} (d : List (String × α)) (k : String) : Option α :=
  (d.find? (fun p => p.1 == k)).map (fun p => p.2)

/-- `del d[k]` (removes every binding of the key). -/
def delKey {α : Type} (d : List (String × α)) (k : String) : List (String × α) :=
  d.filter (fun p => p.1 != k)

/-- `int(v)`: conversion of a Python value to int; `Option.none` models the
`TypeError`/`ValueError` raised when the value is not convertible. -/
def pyToInt : PyVal → Option Int
  | .int n => some n
  | .bool b => some (if b then 1 else 0)
  | .float q => some (if q < 0 then -((-q).floor) else q.floor)
  | .str s => s.toInt?
  | _ => Option.none

/-- runner.py `StepStatus` enum. -/
inductive StepStatus where
  | pending
  | running
  | completed
  | failed
  | skipped
deriving Repr, DecidableEq

/-- The `.value` string of a `StepStatus` member. -/
def StepStatus.value : StepStatus → String
  | .pending => "pending"
  | .running => "running"
  | .completed => "completed"
  | .failed => "failed"
  | .skipped => "skipped"

/-- Enum lookup `StepStatus(s)`: `Option.none` models the `ValueError`. -/
def StepStatus.fromValue : String → Option StepStatus
  | "pending" => some .pending
  | "running" => some .running
  | "completed" => some .completed
  | "failed" => some .failed
  | "skipped" => some .skipped
  | _ => Option.none

/-- runner.py `StepState` dataclass.  `status` is always a `StepStatus` member
(the dataclass default, `from_dict`'s conversion and every mutator guarantee
it); the remaining fields hold whatever Python value was assigned, so they are
`PyVal`. -/
structure StepState where
  name : PyVal
  status : StepStatus
  message : PyVal
  detail : PyVal
  progress : PyVal
  eta_seconds : PyVal
  start_time : PyVal
deriving Repr, DecidableEq

/-- A fresh `StepState(name)` with the dataclass defaults. -/
def defStep (name : String) : StepState :=
  { name := .str name
    status := .pending
    message := .str ""
    detail := .str ""
    progress := .float 0
    eta_seconds := .none
    start_time := .none }

/-- runner.py `PipelineState` dataclass (the JobRecord).  `cancelled` is always
a Python bool and `folder_id` always `int | None` (checked by `from_dict`), so
those two are typed; the other scalar fields are `PyVal`. -/
structure PipelineState where
  job_id : PyVal
  original_filename : PyVal
  status : PyVal
  steps : List (String × StepState)
  result : PyVal
  error : PyVal
  cancelled : Bool
  file_hash : PyVal
  folder_id : Option Int
deriving Repr, DecidableEq

/-- `PipelineState(...)` with the dataclass defaults for unlisted fields. -/
def mkState (job_id original_filename : String) (fh : Option String)
    (fid : Option Int) : PipelineState :=
  { job_id := .str job_id
    original_filename := .str original_filename
    status := .str "pending"
    steps := []
    result := .dict []
    error := .none
    cancelled := false
    file_hash := match fh with | some h => .str h | Option.none => .none
    folder_id := fid }

/-- `folder_id : Option Int` rendered back as a Python value. -/
def folderVal : Option Int → PyVal
  | some n => .int n
  | Option.none => .none

/-- The per-step dict built inside `PipelineState.to_dict` (runner.py 58-65);
note `start_time` is deliberately not serialized. -/
def stepToDict (v : StepState) : PyVal :=
  .dict [("name", v.name), ("status", .str v.status.value),
         ("message", v.message), ("detail", v.detail),
         ("progress", v.progress), ("eta_seconds", v.eta_seconds)]

/-- `PipelineState.to_dict` (runner.py 52-71). -/
def PipelineState.to_dict (s : PipelineState) : List (String × PyVal) :=
  [("job_id", s.job_id),
   ("original_filename", s.original_filename),
   ("status", s.status),
   ("steps", .dict (s.steps.map (fun p => (p.1, stepToDict p.2)))),
   ("result", s.result),
   ("error", s.error),
   ("folder_id", folderVal s.folder_id)]

/-- `PipelineState.to_persist_dict` (runner.py 73-77): `to_dict` plus
`file_hash`. -/
def PipelineState.to_persist_dict (s : PipelineState) : List (String × PyVal) :=
  s.to_dict ++ [("file_hash", s.file_hash)]

/-- The `StepStatus(status_val) … except ValueError: PENDING` conversion inside
`from_dict` (runner.py 86-90): any value that is not one of the five enum
strings falls back to `PENDING`. -/
def stepStatusOf (v : PyVal) : StepStatus :=
  match v with
  | .str s => (StepStatus.fromValue s).getD .pending
  | _ => .pending

/-- Reconstruction of one `StepState` from its persisted dict entry
(runner.py 86-99); `k` is the step key, used as the default name. -/
def stepFromDict (k : String) (kvs : List (String × PyVal)) : StepState :=
  { name := pyGetD kvs "name" (.str k)
    status := stepStatusOf (pyGetD kvs "status" (.str "pending"))
    message := pyGetD kvs "message" (.str "")
    detail := pyGetD kvs "detail" (.str "")
    progress := pyGetD kvs "progress" (.float 0)
    eta_seconds := pyGet kvs "eta_seconds"
    start_time := pyGet kvs "start_time" }

/-- `PipelineState.from_dict` (runner.py 79-115).  `Except.error` models an
uncaught exception: `steps_dict.items()` raises `AttributeError` when
`d.get("steps")` is truthy but not a dict (that is the only uncaught raise in
the body).  Bad stage statuses fall back to `PENDING`, non-dict stage entries
are dropped, and a `folder_id` that `int()` rejects becomes `None`. -/
def PipelineState.from_dict (d : List (String × PyVal)) :
    Except String PipelineState := do
  let stepsRaw := if (pyGet d "steps").truthy then pyGet d "steps" else .dict []
  let stepsDict ← match stepsRaw with
    | .dict kvs => Except.ok kvs
    | _ => Except.error "AttributeError: object has no attribute items"
  let steps := stepsDict.filterMap (fun p =>
    match p.2 with
    | .dict kvs => some (p.1, stepFromDict p.1 kvs)
    | _ => Option.none)
  let fid : Option Int :=
    match pyGet d "folder_id" with
    | .none => Option.none
    | v => pyToInt v
  Except.ok
    { job_id := pyGetD d "job_id" (.str "")
      original_filename := pyGetD d "original_filename" (.str "")
      status := pyGetD d "status" (.str "pending")
      steps := steps
      result := if (pyGet d "result").truthy then pyGet d "result" else .dict []
      error := pyGet d "error"
      cancelled := false
      file_hash := pyGet d "file_hash"
      folder_id := fid }

/-- `state.steps[step_id]` as an `Option` (`Option.none` models `KeyError`). -/
def getStep (st : PipelineState) (sid : String) : Option StepState :=
  lookupKey st.steps sid

/-- In-place mutation of the step named `sid` (Python mutates the `StepState`
object found in the dict; keys and order are untouched). -/
def modifyStep (st : PipelineState) (sid : String) (f : StepState → StepState) :
    PipelineState :=
  { st with steps := st.steps.map (fun p => if p.1 = sid then (p.1, f p.2) else p) }

/-- The field updates `set_step_running` applies to the found step
(runner.py 435-440).  `now` is the `time.perf_counter()` reading taken if
`start_time` is still unset. -/
def runningUpd (message : String) (progress : Rat) (eta : Option Rat)
    (now : Rat) (step : StepState) : StepState :=
  { step with
    status := .running
    message := .str message
    progress := .float (max 0 (min 100 progress))
    eta_seconds := match eta with | some e => .float e | Option.none => .none
    start_time := if step.start_time = PyVal.none then .float now
                  else step.start_time }

/-- `set_step_running` (runner.py 433-440); `Option.none` models the
`KeyError` on a missing step id. -/
def set_step_running (st : PipelineState) (sid : String) (message : String)
    (progress : Rat) (eta : Option Rat) (now : Rat) : Option PipelineState :=
  match getStep st sid with
  | Option.none => Option.none
  | some _ => some (modifyStep st sid (runningUpd message progress eta now))

/-- The field updates `set_step_ok` applies (runner.py 444-448). -/
def okUpd (detail : String) (step : StepState) : StepState :=
  { step with
    status := .completed
    message := .str "Done"
    detail := .str detail
    progress := .float 100
    eta_seconds := .none }

/-- `set_step_ok` (runner.py 442-448). -/
def set_step_ok (st : PipelineState) (sid : String) (detail : String) :
    Option PipelineState :=
  match getStep st sid with
  | Option.none => Option.none
  | some _ => some (modifyStep st sid (okUpd detail))

/-- The field updates `set_step_fail` applies (runner.py 452-456). -/
def failUpd (err : String) (step : StepState) : StepState :=
  { step with
    status := .failed
    message := .str "Failed"
    detail := .str err
    progress := .float 0
    eta_seconds := .none }

/-- `set_step_fail` (runner.py 450-456); total because its only caller has just
found the step by scanning `state.steps`. -/
def set_step_fail (st : PipelineState) (sid : String) (err : String) :
    PipelineState :=
  modifyStep st sid (failUpd err)

/-- The cancel return path (runner.py 459-462, 474-477, 481-484, 496-499,
504-507, 519-522): status `cancelled`, cancellation message, immediate
return. -/
def cancelStop (st : PipelineState) : PipelineState :=
  { st with status := .str "cancelled", error := .str "Cancelled by user" }

/-- The `except Exception` handler (runner.py 548-555): status `failed`,
error recorded, and the first stage found `RUNNING` flipped to `FAILED`. -/
def failWith (st : PipelineState) (e : String) : PipelineState :=
  let st' := { st with status := .str "failed", error := .str e }
  match st'.steps.find? (fun p => p.2.status == .running) with
  | some p => set_step_fail st' p.1 e
  | Option.none => st'

/-- Oracle for one stage-executor call: the `perf_counter()` reading at stage
start, the `(message, progress, elapsed)` triples of its `on_progress` calls,
and the exception it raises, if any.  An executor that observes the
cancellation predicate and returns early is simply a run with `err = none`. -/
structure StageRun where
  startClock : Rat
  reports : List (String × Rat × Rat)
  err : Option String

/-- The ETA recomputed by the progress closures (runner.py 469-471, 491-493,
514-516): linear extrapolation from `(elapsed, progress)`, defined only for
`0 < progress < 100`. -/
def etaOf (r : String × Rat × Rat) : Option Rat :=
  if 0 < r.2.1 ∧ r.2.1 < 100 then some ((r.2.2 / r.2.1) * (100 - r.2.1))
  else Option.none

/-- One `on_progress` callback invocation (runner.py 467-472, 489-494,
512-517): recompute the ETA, then `set_step_running`.  Total because the
stage was set running just before (the `getD` default is never reached). -/
def applyReport (sid : String) (startClock : Rat) (st : PipelineState)
    (r : String × Rat × Rat) : PipelineState :=
  (set_step_running st sid r.1 r.2.1 (etaOf r) startClock).getD st

/-- Executing one stage: mark it running with message `"Starting..."`
(runner.py 465, 487, 510), apply the executor's progress reports, then either
return normally or raise (`Except.error` carries the state reached at the
raise). -/
def stageRun (st : PipelineState) (sid : String) (r : StageRun) :
    Except (PipelineState × String) PipelineState :=
  match set_step_running st sid "Starting..." 0 Option.none r.startClock with
  | Option.none => Except.error (st, "KeyError: " ++ sid)
  | some st1 =>
    let st2 := r.reports.foldl (applyReport sid r.startClock) st1
    match r.err with
    | some e => Except.error (st2, e)
    | Option.none => Except.ok st2

/-- Final values of the executors' shared `PipelineContext` (what the three
external stage executors produced into it). -/
structure Ctx where
  transcription : PyVal
  timestamps : List PyVal
  main_topic : PyVal
  subtopics : PyVal
  truth_statements_md : PyVal
  original_filename : String

/-- `state.result[k] = v`; `Option.none` models the `TypeError` raised when
`result` is not a dict. -/
def setResult (st : PipelineState) (k : String) (v : PyVal) : Option PipelineState :=
  match st.result with
  | .dict kvs => some { st with result := .dict (setKey kvs k v) }
  | _ => Option.none

/-- Lift a `KeyError`/`TypeError` point into the surrounding `try` block. -/
def orRaise (o : Option PipelineState) (st : PipelineState) (msg : String) :
    Except (PipelineState × String) PipelineState :=
  match o with
  | some s => Except.ok s
  | Option.none => Except.error (st, msg)

/-- The body of `run_pipeline`'s `try` block (runner.py 458-547).  `canc i` is
the value of the shared `cancelled` flag observed by the i-th `is_cancelled()`
call (i = 0..5); `pre`, `tra`, `ana` are the three executor oracles.  The
best-effort indexing hooks (runner.py 531-547) touch no runner state and any
exception from them is swallowed, so they do not appear. -/
def run_try (canc : Nat → Bool) (pre tra ana : StageRun) (ctx : Ctx)
    (st0 : PipelineState) : Except (PipelineState × String) PipelineState :=
  if canc 0 then Except.ok (cancelStop st0) else
  match stageRun st0 "preprocess" pre with
  | Except.error p => Except.error p
  | Except.ok st1 =>
  if canc 1 then Except.ok (cancelStop st1) else
  match orRaise (set_step_ok st1 "preprocess" "Converted to WAV and normalized") st1 "KeyError: preprocess" with
  | Except.error p => Except.error p
  | Except.ok st2 =>
  match orRaise (setResult st2 "audio_ready" (.bool true)) st2 "TypeError: result item assignment" with
  | Except.error p => Except.error p
  | Except.ok st3 =>
  if canc 2 then Except.ok (cancelStop st3) else
  match stageRun st3 "transcribe" tra with
  | Except.error p => Except.error p
  | Except.ok st4 =>
  if canc 3 then Except.ok (cancelStop st4) else
  match orRaise (set_step_ok st4 "transcribe" (toString ctx.timestamps.length ++ " segments")) st4 "KeyError: transcribe" with
  | Except.error p => Except.error p
  | Except.ok st5 =>
  match orRaise (setResult st5 "transcription" ctx.transcription) st5 "TypeError: result item assignment" with
  | Except.error p => Except.error p
  | Except.ok st6 =>
  match orRaise (setResult st6 "timestamps" (.list ctx.timestamps)) st6 "TypeError: result item assignment" with
  | Except.error p => Except.error p
  | Except.ok st7 =>
  if canc 4 then Except.ok (cancelStop st7) else
  match stageRun st7 "analyze" ana with
  | Except.error p => Except.error p
  | Except.ok st8 =>
  if canc 5 then Except.ok (cancelStop st8) else
  match orRaise (set_step_ok st8 "analyze" "Main topic, subtopics, and truth statements extracted") st8 "KeyError: analyze" with
  | Except.error p => Except.error p
  | Except.ok st9 =>
  match orRaise (setResult st9 "main_topic" ctx.main_topic) st9 "TypeError: result item assignment" with
  | Except.error p => Except.error p
  | Except.ok st10 =>
  match orRaise (setResult st10 "subtopics" ctx.subtopics) st10 "TypeError: result item assignment" with
  | Except.error p => Except.error p
  | Except.ok st11 =>
  match orRaise (setResult st11 "truth_statements_md" ctx.truth_statements_md) st11 "TypeError: result item assignment" with
  | Except.error p => Except.error p
  | Except.ok st12 =>
  match orRaise (setResult st12 "original_filename" (.str ctx.original_filename)) st12 "TypeError: result item assignment" with
  | Except.error p => Except.error p
  | Except.ok st13 => Except.ok { st13 with status := PyVal.str "completed" }

/-- The `file_hash`/`folder_id` presets at the top of `run_pipeline`
(runner.py 424-427): `if file_hash: ...` is a truthiness test, `if folder_id
is not None: ...` an identity test. -/
def applyPresets (fh : Option String) (fid : Option Int) (st : PipelineState) :
    PipelineState :=
  let st := match fh with
    | some h => if h ≠ "" then { st with file_hash := PyVal.str h } else st
    | Option.none => st
  match fid with
  | some i => { st with folder_id := some i }
  | Option.none => st

/-- `run_pipeline` acting on the job's record (runner.py 422-556 given the
record): set status `running`, RESET `cancelled` to `False` (line 423), apply
the `file_hash`/`folder_id` presets (424-427), run the `try` body, and on an
exception run the handler and re-raise (the second component is the exception
propagated to the caller). -/
def run_pipeline_rec (canc : Nat → Bool) (pre tra ana : StageRun) (ctx : Ctx)
    (fh : Option String) (fid : Option Int) (st : PipelineState) :
    PipelineState × Option String :=
  let st := applyPresets fh fid
    { st with status := PyVal.str "running", cancelled := false }
  match run_try canc pre tra ana ctx st with
  | Except.ok st' => (st', Option.none)
  | Except.error (st', e) => (failWith st' e, some e)

/-- The three fresh steps created for a new job (runner.py 362-366 and
416-420). -/
def initSteps : List (String × StepState) :=
  [("preprocess", defStep "Preprocess audio"),
   ("transcribe", defStep "Transcribe (Whisper)"),
   ("analyze", defStep "Extract topics & truth statements")]

/-- The record the worker publishes before running a claimed job
(runner.py 356-367): fresh state, three pending steps, status `running`. -/
def freshState (job_id original_filename : String) (fh : Option String)
    (fid : Option Int) : PipelineState :=
  { mkState job_id original_filename fh fid with
      steps := initSteps, status := PyVal.str "running" }

/-- One `_queue` entry (runner.py 250-257); `job_id` is attached when the
worker claims the item (line 346). -/
structure QueueItem where
  queue_id : String
  upload_path : String
  original_filename : String
  file_hash : String
  folder_id : Option Int
  status : String
  job_id : Option String
deriving Repr, DecidableEq

/-- The module-level mutable state of runner.py (lines 118-133): `_jobs`,
`_queue`, `_processed_hashes`, `_job_to_hash`, `_queue_paused`,
`_current_job_id`.  Dicts are insertion-ordered association lists; the hash
set is a duplicate-free list. -/
structure RunnerState where
  jobs : List (String × PipelineState)
  queue : List QueueItem
  processed_hashes : List PyVal
  job_to_hash : List (String × PyVal)
  queue_paused : Bool
  current_job_id : Option String
deriving Repr, DecidableEq

/-- The state at process start: everything empty, not paused. -/
def initRunner : RunnerState :=
  { jobs := [], queue := [], processed_hashes := [], job_to_hash := []
    queue_paused := false, current_job_id := Option.none }

/-- `_jobs.get(job_id)` (runner.py `get_job`, line 191-192). -/
def lookupJob (g : RunnerState) (job_id : String) : Option PipelineState :=
  lookupKey g.jobs job_id

/-- `_processed_hashes.add(v)` (set insertion). -/
def addHash (hs : List PyVal) (v : PyVal) : List PyVal :=
  if v ∈ hs then hs else hs ++ [v]

/-- `is_already_processed` (runner.py 208-211). -/
def is_already_processed (file_hash : String) (g : RunnerState) : Bool :=
  PyVal.str file_hash ∈ g.processed_hashes

/-- The dict appended by `add_to_queue` (runner.py 250-257). -/
def mkQueueItem (queue_id upload_path original_filename file_hash : String)
    (folder_id : Option Int) : QueueItem :=
  { queue_id := queue_id, upload_path := upload_path,
    original_filename := original_filename, file_hash := file_hash,
    folder_id := folder_id, status := "pending", job_id := Option.none }

/-- `add_to_queue` (runner.py 243-258); `queue_id` stands for the fresh
uuid4. -/
def add_to_queue (queue_id upload_path original_filename file_hash : String)
    (folder_id : Option Int) (g : RunnerState) : RunnerState :=
  { g with queue := g.queue
      ++ [mkQueueItem queue_id upload_path original_filename file_hash
            folder_id] }

/-- The per-item dict built by `get_queue_state` for its `pending` list
(runner.py 221-230) — built for EVERY `_queue` item, with no status filter. -/
def pendingEntry (item : QueueItem) : List (String × PyVal) :=
  [("queue_id", .str item.queue_id),
   ("original_filename", .str item.original_filename),
   ("file_hash", .str item.file_hash),
   ("folder_id", folderVal item.folder_id),
   ("status", .str item.status)]

/-- The snapshot returned by `get_queue_state` (runner.py 235-240). -/
structure QueueSnapshot where
  paused : Bool
  current_job_id : Option String
  pending : List (List (String × PyVal))
  jobs : List (List (String × PyVal))
deriving Repr, DecidableEq

/-- `get_queue_state` (runner.py 214-240): a read-only snapshot built under
one lock acquisition. -/
def get_queue_state (g : RunnerState) : QueueSnapshot :=
  { paused := g.queue_paused
    current_job_id := g.current_job_id
    pending := g.queue.map pendingEntry
    jobs := g.jobs.map (fun p => p.2.to_dict) }

/-- `cancel_job` (runner.py 295-306).  The inner re-lookup guarded by
`_current_job_id == job_id` repeats the same dict access, so it can never
produce a record the first lookup missed; it is kept for faithfulness. -/
def cancel_job (job_id : String) (g : RunnerState) : Bool × RunnerState :=
  let state0 := lookupJob g job_id
  let state := match state0 with
    | some s => some s
    | Option.none =>
      match g.current_job_id with
      | some c => if c ≠ "" ∧ c = job_id then lookupJob g c else Option.none
      | Option.none => Option.none
  match state with
  | Option.none => (false, g)
  | some st =>
    if st.status = PyVal.str "running" then
      (true, { g with jobs := setKey g.jobs job_id { st with cancelled := true } })
    else (false, g)

/-- `_job_to_hash.pop(job_id, None)`. -/
def popKey (d : List (String × PyVal)) (k : String) :
    Option PyVal × List (String × PyVal) :=
  (lookupKey d k, delKey d k)

/-- `remove_job` (runner.py 271-292).  The on-disk unlink and the DB delete
are external I/O with their failures swallowed; they touch no runner state. -/
def remove_job (job_id : String) (g : RunnerState) : Bool × RunnerState :=
  match lookupJob g job_id with
  | Option.none => (false, g)
  | some _ =>
    let jobs' := delKey g.jobs job_id
    let (h, j2h') := popKey g.job_to_hash job_id
    let processed' := match h with
      | some v => if v.truthy then g.processed_hashes.filter (fun x => x ≠ v)
                  else g.processed_hashes
      | Option.none => g.processed_hashes
    (true, { g with jobs := jobs', job_to_hash := j2h',
                    processed_hashes := processed' })

/-- The queue scan of `_worker_loop` (runner.py 338-348): flip the first
`pending` item to `running`, stamp the fresh job id on it. -/
def claimQueue (newId : String) : List QueueItem →
    Option (QueueItem × List QueueItem)
  | [] => Option.none
  | q :: rest =>
    if q.status = "pending" then
      let q' := { q with status := "running", job_id := some newId }
      some (q', q' :: rest)
    else
      match claimQueue newId rest with
      | some (item, rest') => some (item, q :: rest')
      | Option.none => Option.none

/-- One claim step of `_worker_loop` (runner.py 332-370): if paused or no
pending item, clear `_current_job_id` and idle; otherwise claim the first
pending item, build the fresh record (three pending steps, status `running`),
publish it and set `_current_job_id`.  `newId` stands for the fresh uuid4.
Returns the claimed job id. -/
def workerClaim (newId : String) (g : RunnerState) :
    RunnerState × Option String :=
  if g.queue_paused ∨ g.queue.isEmpty then
    ({ g with current_job_id := Option.none }, Option.none)
  else
    match claimQueue newId g.queue with
    | Option.none => ({ g with current_job_id := Option.none }, Option.none)
    | some (item, queue') =>
      let fh : Option String :=
        if item.file_hash = "" then Option.none else some item.file_hash
      let st := freshState newId item.original_filename fh item.folder_id
      ({ g with queue := queue', jobs := setKey g.jobs newId st,
                current_job_id := some newId }, some newId)

/-- The row upserted into the external metadata store by `_save_job_state`
(runner.py 147-154). -/
structure JobRow where
  job_id : PyVal
  folder_id : Option Int
  original_filename : PyVal
  file_hash : PyVal
  status : PyVal
deriving Repr, DecidableEq

/-- `_save_job_state` (runner.py 136-156).  Returns what reached the durable
file and the metadata store (`Option.none` for an attempt whose failure was
swallowed by its own `try` block).  `mkdirFail`, `diskFail`, `dbFail` are
I/O-failure oracles; the `JOBS_STATE_DIR.mkdir` call at line 140 runs OUTSIDE
any `try`, so its failure propagates (`Except.error`). -/
def save_job_state (mkdirFail diskFail dbFail : Bool) (st : PipelineState) :
    Except String (Option (List (String × PyVal)) × Option JobRow) :=
  if st.status ∈ [PyVal.str "completed", PyVal.str "failed", PyVal.str "cancelled"] then
    if mkdirFail then Except.error "OSError: mkdir failed"
    else
      Except.ok
        ((if diskFail then Option.none else some st.to_persist_dict),
         (if dbFail then Option.none
          else some { job_id := st.job_id, folder_id := st.folder_id,
                      original_filename := st.original_filename,
                      file_hash := st.file_hash, status := st.status }))
  else Except.ok (Option.none, Option.none)

/-- The worker's `finally` block (runner.py 376-388) given the record the run
ended with: clear `_current_job_id`, record the hash of a completed job in the
dedup index, persist a terminal record (external I/O — no runner-state
change), and drop the claimed item from the queue. -/
def workerFinalize (job_id : String) (st : PipelineState) (g : RunnerState) :
    RunnerState :=
  let g1 := { g with current_job_id := Option.none }
  let g2 :=
    if st.status = PyVal.str "completed" ∧ st.file_hash.truthy then
      { g1 with processed_hashes := addHash g1.processed_hashes st.file_hash,
                job_to_hash := setKey g1.job_to_hash job_id st.file_hash }
    else g1
  { g2 with queue := g2.queue.filter (fun q => q.job_id ≠ some job_id) }

/-- `run_pipeline` at the `RunnerState` level (runner.py 397-556): look up or
create-and-publish the record (405-421), then run on it and store the mutated
record back (Python mutates the shared object in place). -/
def run_pipeline_g (canc : Nat → Bool) (pre tra ana : StageRun) (ctx : Ctx)
    (job_id original_filename : String) (fh : Option String) (fid : Option Int)
    (g : RunnerState) : RunnerState × Option String :=
  let st0 := match lookupJob g job_id with
    | some s => s
    | Option.none =>
      { mkState job_id original_filename fh fid with steps := initSteps }
  let (st', exc) := run_pipeline_rec canc pre tra ana ctx fh fid st0
  ({ g with jobs := setKey g.jobs job_id st' }, exc)

/-- One full worker iteration that found work (runner.py 331-388): claim,
run, finalize. -/
def workerIteration (newId : String) (canc : Nat → Bool)
    (pre tra ana : StageRun) (ctx : Ctx) (g : RunnerState) : RunnerState :=
  match workerClaim newId g with
  | (g', Option.none) => g'
  | (g', some job_id) =>
    match lookupJob g' job_id with
    | Option.none => g'
    | some st =>
      let fh : Option String := match st.file_hash with
        | PyVal.str h => if h = "" then Option.none else some h
        | _ => Option.none
      let (g'', _) := run_pipeline_g canc pre tra ana ctx job_id
        (match st.original_filename with | PyVal.str s => s | _ => "") fh
        st.folder_id g'
      match lookupJob g'' job_id with
      | some st' => workerFinalize job_id st' g''
      | Option.none => workerFinalize job_id st g''

/-! ### Toolkit lemmas about the step mutators -/

theorem modifyStep_status (st : PipelineState) (sid : String)
    (f : StepState → StepState) : (modifyStep st sid f).status = st.status := rfl

theorem modifyStep_result (st : PipelineState) (sid : String)
    (f : StepState → StepState) : (modifyStep st sid f).result = st.result := rfl

theorem modifyStep_error (st : PipelineState) (sid : String)
    (f : StepState → StepState) : (modifyStep st sid f).error = st.error := rfl

theorem modifyStep_id (st : PipelineState) (sid : String) :
    modifyStep st sid (fun s => s) = st := by
  have hmap : ∀ l : List (String × StepState),
      l.map (fun p => if p.1 = sid then (p.1, p.2) else p) = l := by
    intro l
    induction l with
    | nil => rfl
    | cons p l ih => by_cases h : p.1 = sid <;> simp [h, ih]
  show { st with steps := _ } = st
  rw [hmap]

theorem modifyStep_comp (st : PipelineState) (sid : String)
    (f g : StepState → StepState) :
    modifyStep (modifyStep st sid f) sid g
      = modifyStep st sid (fun s => g (f s)) := by
  simp only [modifyStep, List.map_map]
  congr 1
  apply List.map_congr_left
  intro p _
  by_cases h : p.1 = sid
  · simp [Function.comp, h]
  · simp [Function.comp, h]

theorem find_map_ite {α : Type} (l : List (String × α)) (sid : String)
    (f : α → α) :
    (l.map (fun p => if p.1 = sid then (p.1, f p.2) else p)).find?
        (fun p => p.1 == sid)
      = (l.find? (fun p => p.1 == sid)).map (fun p => (p.1, f p.2)) := by
  induction l with
  | nil => rfl
  | cons p l ih =>
    have hkey : (if p.1 = sid then (p.1, f p.2) else p).1 = p.1 := by
      split <;> rfl
    by_cases hp : p.1 = sid
    · simp [List.find?_cons, hkey, hp]
    · have hb : (p.1 == sid) = false := by simpa using hp
      simp [List.find?_cons, hkey, hb, hp, ih]

theorem find_map_ite_ne {α : Type} (l : List (String × α)) (sid k : String)
    (f : α → α) (h : k ≠ sid) :
    (l.map (fun p => if p.1 = sid then (p.1, f p.2) else p)).find?
        (fun p => p.1 == k)
      = l.find? (fun p => p.1 == k) := by
  induction l with
  | nil => rfl
  | cons p l ih =>
    have hkey : (if p.1 = sid then (p.1, f p.2) else p).1 = p.1 := by
      split <;> rfl
    cases hpk : (p.1 == k) with
    | true =>
      have hp1 : p.1 = k := by simpa using hpk
      have hps : ¬ p.1 = sid := by rw [hp1]; exact h
      simp [List.find?_cons, hkey, hpk, hps]
    | false =>
      by_cases hps : p.1 = sid
      · have hsk : (sid == k) = false := by rw [← hps]; exact hpk
        simp [List.find?_cons, hkey, hpk, hps, hsk, ih]
      · simp [List.find?_cons, hkey, hpk, hps, ih]

theorem getStep_modifyStep_self (st : PipelineState) (sid : String)
    (f : StepState → StepState) :
    getStep (modifyStep st sid f) sid = (getStep st sid).map f := by
  show lookupKey _ _ = _
  unfold lookupKey getStep lookupKey modifyStep
  rw [find_map_ite]
  cases st.steps.find? (fun p => p.1 == sid) <;> rfl

theorem getStep_modifyStep_ne (st : PipelineState) (sid k : String)
    (f : StepState → StepState) (h : k ≠ sid) :
    getStep (modifyStep st sid f) k = getStep st k := by
  unfold getStep lookupKey modifyStep
  rw [find_map_ite_ne _ _ _ _ h]

/-- The cumulative effect on one step of a sequence of progress reports. -/
def reportFold (c : Rat) (l : List (String × Rat × Rat)) (s : StepState) :
    StepState :=
  l.foldl (fun a r => runningUpd r.1 r.2.1 (etaOf r) c a) s

theorem applyReport_eq (sid : String) (c : Rat) (st : PipelineState)
    (r : String × Rat × Rat) (h : (getStep st sid).isSome) :
    applyReport sid c st r
      = modifyStep st sid (runningUpd r.1 r.2.1 (etaOf r) c) := by
  unfold applyReport set_step_running
  cases hg : getStep st sid with
  | none => rw [hg] at h; exact absurd h (by simp)
  | some s => simp [hg]

theorem foldl_applyReport (sid : String) (c : Rat)
    (l : List (String × Rat × Rat)) (st : PipelineState)
    (h : (getStep st sid).isSome) :
    l.foldl (applyReport sid c) st
      = modifyStep st sid (reportFold c l) := by
  induction l generalizing st with
  | nil =>
    show st = modifyStep st sid (fun s => s)
    rw [modifyStep_id]
  | cons r l ih =>
    have h1 : (getStep (applyReport sid c st r) sid).isSome := by
      rw [applyReport_eq sid c st r h, getStep_modifyStep_self]
      cases hg : getStep st sid with
      | none => rw [hg] at h; exact absurd h (by simp)
      | some s => simp
    show List.foldl (applyReport sid c) (applyReport sid c st r) l = _
    rw [ih (applyReport sid c st r) h1, applyReport_eq sid c st r h,
      modifyStep_comp]
    rfl

/-- Everything one stage-executor call does to its own step: initial
`set_step_running` (`"Starting..."`, progress 0) followed by all progress
reports. -/
def stageUpd (r : StageRun) (s : StepState) : StepState :=
  reportFold r.startClock r.reports
    (runningUpd "Starting..." 0 Option.none r.startClock s)

theorem reportFold_facts (c : Rat) (l : List (String × Rat × Rat)) :
    ∀ s : StepState, s.status = .running → s.start_time ≠ PyVal.none →
      (reportFold c l s).name = s.name ∧ (reportFold c l s).status = .running
      ∧ (reportFold c l s).start_time = s.start_time
      ∧ (reportFold c l s).detail = s.detail := by
  induction l with
  | nil => intro s h1 h2; exact ⟨rfl, h1, rfl, rfl⟩
  | cons r l ih =>
    intro s h1 h2
    have hst : (runningUpd r.1 r.2.1 (etaOf r) c s).start_time = s.start_time := by
      simp [runningUpd, h2]
    have := ih (runningUpd r.1 r.2.1 (etaOf r) c s) rfl (by rw [hst]; exact h2)
    refine ⟨?_, this.2.1, ?_, ?_⟩
    · rw [show (reportFold c (r :: l) s) = reportFold c l (runningUpd r.1 r.2.1 (etaOf r) c s) from rfl]
      rw [this.1]; rfl
    · rw [show (reportFold c (r :: l) s) = reportFold c l (runningUpd r.1 r.2.1 (etaOf r) c s) from rfl]
      rw [this.2.2.1, hst]
    · rw [show (reportFold c (r :: l) s) = reportFold c l (runningUpd r.1 r.2.1 (etaOf r) c s) from rfl]
      rw [this.2.2.2]; rfl

/-- `stageUpd` on a step whose `start_time` is still unset (always the case in
a worker-created record): name and detail survive, the step ends `RUNNING`,
`start_time` records the stage-start clock. -/
theorem stageUpd_facts (r : StageRun) (s : StepState)
    (h : s.start_time = PyVal.none) :
    (stageUpd r s).name = s.name ∧ (stageUpd r s).status = .running
    ∧ (stageUpd r s).start_time = PyVal.float r.startClock
    ∧ (stageUpd r s).detail = s.detail := by
  unfold stageUpd
  have h0 : (runningUpd "Starting..." 0 Option.none r.startClock s).start_time
      = PyVal.float r.startClock := by simp [runningUpd, h]
  have hfacts := reportFold_facts r.startClock r.reports
    (runningUpd "Starting..." 0 Option.none r.startClock s) rfl
    (by rw [h0]; intro hh; exact PyVal.noConfusion hh)
  exact ⟨hfacts.1, hfacts.2.1, by rw [hfacts.2.2.1, h0], hfacts.2.2.2⟩

/-- Characterization of `stageRun` when the step id is present. -/
theorem stageRun_eq (st : PipelineState) (sid : String) (r : StageRun)
    (h : (getStep st sid).isSome) :
    stageRun st sid r
      = match r.err with
        | some e => Except.error (modifyStep st sid (stageUpd r), e)
        | Option.none => Except.ok (modifyStep st sid (stageUpd r)) := by
  unfold stageRun set_step_running
  cases hg : getStep st sid with
  | none => rw [hg] at h; exact absurd h (by simp)
  | some s =>
    have hpres : (getStep (modifyStep st sid
        (runningUpd "Starting..." 0 Option.none r.startClock)) sid).isSome := by
      rw [getStep_modifyStep_self, hg]; simp
    simp only
    rw [foldl_applyReport sid r.startClock r.reports _ hpres, modifyStep_comp]
    rfl

theorem set_step_ok_eq (st : PipelineState) (sid : String) (d : String)
    (h : (getStep st sid).isSome) :
    set_step_ok st sid d = some (modifyStep st sid (okUpd d)) := by
  unfold set_step_ok
  cases hg : getStep st sid with
  | none => rw [hg] at h; exact absurd h (by simp)
  | some s => simp

theorem setResult_eq (st : PipelineState) (k : String) (v : PyVal)
    (kvs : List (String × PyVal)) (h : st.result = .dict kvs) :
    setResult st k v = some { st with result := .dict (setKey kvs k v) } := by
  unfold setResult
  rw [h]

theorem applyPresets_steps (fh : Option String) (fid : Option Int)
    (st : PipelineState) : (applyPresets fh fid st).steps = st.steps := by
  cases fh with
  | none => cases fid <;> rfl
  | some h => by_cases hh : h = "" <;> cases fid <;> simp [applyPresets, hh]

theorem applyPresets_result (fh : Option String) (fid : Option Int)
    (st : PipelineState) : (applyPresets fh fid st).result = st.result := by
  cases fh with
  | none => cases fid <;> rfl
  | some h => by_cases hh : h = "" <;> cases fid <;> simp [applyPresets, hh]

theorem applyPresets_status (fh : Option String) (fid : Option Int)
    (st : PipelineState) : (applyPresets fh fid st).status = st.status := by
  cases fh with
  | none => cases fid <;> rfl
  | some h => by_cases hh : h = "" <;> cases fid <;> simp [applyPresets, hh]

/-! ### Reductions on the concrete three-step layout -/

theorem getStep3_pre (o : PipelineState) (a b c : StepState)
    (h : o.steps = [("preprocess", a), ("transcribe", b), ("analyze", c)]) :
    getStep o "preprocess" = some a := by
  unfold getStep lookupKey
  rw [h]
  rfl

theorem getStep3_tra (o : PipelineState) (a b c : StepState)
    (h : o.steps = [("preprocess", a), ("transcribe", b), ("analyze", c)]) :
    getStep o "transcribe" = some b := by
  unfold getStep lookupKey
  rw [h]
  rfl

theorem getStep3_ana (o : PipelineState) (a b c : StepState)
    (h : o.steps = [("preprocess", a), ("transcribe", b), ("analyze", c)]) :
    getStep o "analyze" = some c := by
  unfold getStep lookupKey
  rw [h]
  rfl

theorem modify3_pre (o : PipelineState) (a b c : StepState)
    (f : StepState → StepState)
    (h : o.steps = [("preprocess", a), ("transcribe", b), ("analyze", c)]) :
    (modifyStep o "preprocess" f).steps
      = [("preprocess", f a), ("transcribe", b), ("analyze", c)] := by
  show o.steps.map _ = _
  rw [h]
  rfl

theorem modify3_tra (o : PipelineState) (a b c : StepState)
    (f : StepState → StepState)
    (h : o.steps = [("preprocess", a), ("transcribe", b), ("analyze", c)]) :
    (modifyStep o "transcribe" f).steps
      = [("preprocess", a), ("transcribe", f b), ("analyze", c)] := by
  show o.steps.map _ = _
  rw [h]
  rfl

theorem modify3_ana (o : PipelineState) (a b c : StepState)
    (f : StepState → StepState)
    (h : o.steps = [("preprocess", a), ("transcribe", b), ("analyze", c)]) :
    (modifyStep o "analyze" f).steps
      = [("preprocess", a), ("transcribe", b), ("analyze", f c)] := by
  show o.steps.map _ = _
  rw [h]
  rfl

/-! ### Path lemmas for `run_try` -/

theorem run_try_c0 (canc : Nat → Bool) (pre tra ana : StageRun) (ctx : Ctx)
    (st0 : PipelineState) (hc : canc 0 = true) :
    run_try canc pre tra ana ctx st0 = Except.ok (cancelStop st0) := by
  unfold run_try
  simp [hc]

theorem run_try_preFail (canc : Nat → Bool) (pre tra ana : StageRun)
    (ctx : Ctx) (st0 : PipelineState) (e : String)
    (hc : canc 0 = false) (he : pre.err = some e)
    (hpre : (getStep st0 "preprocess").isSome) :
    run_try canc pre tra ana ctx st0
      = Except.error (modifyStep st0 "preprocess" (stageUpd pre), e) := by
  unfold run_try
  rw [stageRun_eq st0 "preprocess" pre hpre, he]
  simp [hc]

theorem orRaise_some (s st : PipelineState) (m : String) :
    orRaise (some s) st m = Except.ok s := rfl

theorem run_try_c1 (canc : Nat → Bool) (pre tra ana : StageRun) (ctx : Ctx)
    (st0 : PipelineState)
    (hc0 : canc 0 = false) (hc1 : canc 1 = true) (hp : pre.err = Option.none)
    (hpre : (getStep st0 "preprocess").isSome) :
    run_try canc pre tra ana ctx st0
      = Except.ok (cancelStop (modifyStep st0 "preprocess" (stageUpd pre))) := by
  have e1 : stageRun st0 "preprocess" pre
      = Except.ok (modifyStep st0 "preprocess" (stageUpd pre)) := by
    rw [stageRun_eq st0 "preprocess" pre hpre, hp]
  unfold run_try
  simp [hc0, hc1, e1]

/-- `set_step_ok` detail for preprocess (runner.py 478). -/
def dPre : String := "Converted to WAV and normalized"

/-- `set_step_ok` detail for transcribe (runner.py 500). -/
def dTra (ctx : Ctx) : String := toString ctx.timestamps.length ++ " segments"

/-- `set_step_ok` detail for analyze (runner.py 523). -/
def dAna : String := "Main topic, subtopics, and truth statements extracted"

/-- Result dict after `result["audio_ready"] = True`. -/
def rAud (r : List (String × PyVal)) : List (String × PyVal) :=
  setKey r "audio_ready" (PyVal.bool true)

/-- Result dict after the transcribe-stage merges (runner.py 501-502). -/
def res2 (ctx : Ctx) (r : List (String × PyVal)) : List (String × PyVal) :=
  setKey (setKey r "transcription" ctx.transcription) "timestamps"
    (PyVal.list ctx.timestamps)

/-- Result dict after the analyze-stage merges (runner.py 524-527). -/
def res3 (ctx : Ctx) (r : List (String × PyVal)) : List (String × PyVal) :=
  setKey (setKey (setKey (setKey r "main_topic" ctx.main_topic)
    "subtopics" ctx.subtopics) "truth_statements_md" ctx.truth_statements_md)
    "original_filename" (PyVal.str ctx.original_filename)

/-- State after the preprocess stage fully succeeded (executor, `set_step_ok`,
`audio_ready` merge), given the input state's result dict `r`. -/
def stage1 (pre : StageRun) (st : PipelineState) (r : List (String × PyVal)) :
    PipelineState :=
  { modifyStep (modifyStep st "preprocess" (stageUpd pre)) "preprocess"
      (okUpd dPre) with result := PyVal.dict (rAud r) }

/-- State after the transcribe stage fully succeeded. -/
def stage2 (tra : StageRun) (ctx : Ctx) (st : PipelineState)
    (r : List (String × PyVal)) : PipelineState :=
  { modifyStep (modifyStep st "transcribe" (stageUpd tra)) "transcribe"
      (okUpd (dTra ctx)) with result := PyVal.dict (res2 ctx r) }

/-- State after the analyze stage fully succeeded. -/
def stage3 (ana : StageRun) (ctx : Ctx) (st : PipelineState)
    (r : List (String × PyVal)) : PipelineState :=
  { modifyStep (modifyStep st "analyze" (stageUpd ana)) "analyze"
      (okUpd dAna) with result := PyVal.dict (res3 ctx r) }

theorem stage1_steps (pre : StageRun) (st : PipelineState)
    (r : List (String × PyVal)) (a b c : StepState)
    (h : st.steps = [("preprocess", a), ("transcribe", b), ("analyze", c)]) :
    (stage1 pre st r).steps
      = [("preprocess", okUpd dPre (stageUpd pre a)),
         ("transcribe", b), ("analyze", c)] := by
  show (modifyStep (modifyStep st "preprocess" (stageUpd pre)) "preprocess"
      (okUpd dPre)).steps = _
  exact modify3_pre _ _ _ _ _ (modify3_pre _ _ _ _ _ h)

theorem stage2_steps (tra : StageRun) (ctx : Ctx) (st : PipelineState)
    (r : List (String × PyVal)) (a b c : StepState)
    (h : st.steps = [("preprocess", a), ("transcribe", b), ("analyze", c)]) :
    (stage2 tra ctx st r).steps
      = [("preprocess", a),
         ("transcribe", okUpd (dTra ctx) (stageUpd tra b)), ("analyze", c)] := by
  show (modifyStep (modifyStep st "transcribe" (stageUpd tra)) "transcribe"
      (okUpd (dTra ctx))).steps = _
  exact modify3_tra _ _ _ _ _ (modify3_tra _ _ _ _ _ h)

theorem stage3_steps (ana : StageRun) (ctx : Ctx) (st : PipelineState)
    (r : List (String × PyVal)) (a b c : StepState)
    (h : st.steps = [("preprocess", a), ("transcribe", b), ("analyze", c)]) :
    (stage3 ana ctx st r).steps
      = [("preprocess", a), ("transcribe", b),
         ("analyze", okUpd dAna (stageUpd ana c))] := by
  show (modifyStep (modifyStep st "analyze" (stageUpd ana)) "analyze"
      (okUpd dAna)).steps = _
  exact modify3_ana _ _ _ _ _ (modify3_ana _ _ _ _ _ h)

theorem run_try_success (canc : Nat → Bool) (pre tra ana : StageRun)
    (ctx : Ctx) (st0 : PipelineState) (a b c : StepState)
    (r0 : List (String × PyVal))
    (hst : st0.steps = [("preprocess", a), ("transcribe", b), ("analyze", c)])
    (hres : st0.result = PyVal.dict r0)
    (hc0 : canc 0 = false) (hc1 : canc 1 = false) (hc2 : canc 2 = false)
    (hc3 : canc 3 = false) (hc4 : canc 4 = false) (hc5 : canc 5 = false)
    (hp : pre.err = Option.none) (ht : tra.err = Option.none)
    (ha : ana.err = Option.none) :
    run_try canc pre tra ana ctx st0
      = Except.ok { stage3 ana ctx (stage2 tra ctx (stage1 pre st0 r0) (rAud r0))
            (res2 ctx (rAud r0)) with status := PyVal.str "completed" } := by
  have hst1 : (modifyStep st0 "preprocess" (stageUpd pre)).steps
      = [("preprocess", stageUpd pre a), ("transcribe", b), ("analyze", c)] :=
    modify3_pre _ _ _ _ _ hst
  have e1 : stageRun st0 "preprocess" pre
      = Except.ok (modifyStep st0 "preprocess" (stageUpd pre)) := by
    rw [stageRun_eq st0 "preprocess" pre (by simp [getStep3_pre _ _ _ _ hst]), hp]
  have e2 : set_step_ok (modifyStep st0 "preprocess" (stageUpd pre))
        "preprocess" dPre
      = some (modifyStep (modifyStep st0 "preprocess" (stageUpd pre))
          "preprocess" (okUpd dPre)) :=
    set_step_ok_eq _ _ _ (by simp [getStep3_pre _ _ _ _ hst1])
  have e3 : setResult (modifyStep (modifyStep st0 "preprocess" (stageUpd pre))
        "preprocess" (okUpd dPre)) "audio_ready" (PyVal.bool true)
      = some (stage1 pre st0 r0) := setResult_eq _ _ _ r0 hres
  have hstS1 : (stage1 pre st0 r0).steps
      = [("preprocess", okUpd dPre (stageUpd pre a)), ("transcribe", b),
         ("analyze", c)] := stage1_steps _ _ _ _ _ _ hst
  have e4 : stageRun (stage1 pre st0 r0) "transcribe" tra
      = Except.ok (modifyStep (stage1 pre st0 r0) "transcribe" (stageUpd tra)) := by
    rw [stageRun_eq _ "transcribe" tra (by simp [getStep3_tra _ _ _ _ hstS1]), ht]
  have hst4 : (modifyStep (stage1 pre st0 r0) "transcribe" (stageUpd tra)).steps
      = [("preprocess", okUpd dPre (stageUpd pre a)),
         ("transcribe", stageUpd tra b), ("analyze", c)] :=
    modify3_tra _ _ _ _ _ hstS1
  have e5 : set_step_ok (modifyStep (stage1 pre st0 r0) "transcribe"
        (stageUpd tra)) "transcribe" (dTra ctx)
      = some (modifyStep (modifyStep (stage1 pre st0 r0) "transcribe"
          (stageUpd tra)) "transcribe" (okUpd (dTra ctx))) :=
    set_step_ok_eq _ _ _ (by simp [getStep3_tra _ _ _ _ hst4])
  have e6 : setResult (modifyStep (modifyStep (stage1 pre st0 r0) "transcribe"
        (stageUpd tra)) "transcribe" (okUpd (dTra ctx)))
        "transcription" ctx.transcription
      = some { modifyStep (modifyStep (stage1 pre st0 r0) "transcribe"
            (stageUpd tra)) "transcribe" (okUpd (dTra ctx)) with
          result := PyVal.dict (setKey (rAud r0) "transcription"
            ctx.transcription) } := setResult_eq _ _ _ (rAud r0) rfl
  have e7 : setResult { modifyStep (modifyStep (stage1 pre st0 r0) "transcribe"
        (stageUpd tra)) "transcribe" (okUpd (dTra ctx)) with
          result := PyVal.dict (setKey (rAud r0) "transcription"
            ctx.transcription) } "timestamps" (PyVal.list ctx.timestamps)
      = some (stage2 tra ctx (stage1 pre st0 r0) (rAud r0)) :=
    setResult_eq _ _ _ (setKey (rAud r0) "transcription" ctx.transcription) rfl
  have hstS2 : (stage2 tra ctx (stage1 pre st0 r0) (rAud r0)).steps
      = [("preprocess", okUpd dPre (stageUpd pre a)),
         ("transcribe", okUpd (dTra ctx) (stageUpd tra b)), ("analyze", c)] :=
    stage2_steps _ _ _ _ _ _ _ hstS1
  have e8 : stageRun (stage2 tra ctx (stage1 pre st0 r0) (rAud r0)) "analyze" ana
      = Except.ok (modifyStep (stage2 tra ctx (stage1 pre st0 r0) (rAud r0))
          "analyze" (stageUpd ana)) := by
    rw [stageRun_eq _ "analyze" ana (by simp [getStep3_ana _ _ _ _ hstS2]), ha]
  have hst8 : (modifyStep (stage2 tra ctx (stage1 pre st0 r0) (rAud r0))
        "analyze" (stageUpd ana)).steps
      = [("preprocess", okUpd dPre (stageUpd pre a)),
         ("transcribe", okUpd (dTra ctx) (stageUpd tra b)),
         ("analyze", stageUpd ana c)] := modify3_ana _ _ _ _ _ hstS2
  have e9 : set_step_ok (modifyStep (stage2 tra ctx (stage1 pre st0 r0)
        (rAud r0)) "analyze" (stageUpd ana)) "analyze" dAna
      = some (modifyStep (modifyStep (stage2 tra ctx (stage1 pre st0 r0)
          (rAud r0)) "analyze" (stageUpd ana)) "analyze" (okUpd dAna)) :=
    set_step_ok_eq _ _ _ (by simp [getStep3_ana _ _ _ _ hst8])
  have e10 : setResult (modifyStep (modifyStep (stage2 tra ctx (stage1 pre st0
        r0) (rAud r0)) "analyze" (stageUpd ana)) "analyze" (okUpd dAna))
        "main_topic" ctx.main_topic
      = some { modifyStep (modifyStep (stage2 tra ctx (stage1 pre st0 r0)
            (rAud r0)) "analyze" (stageUpd ana)) "analyze" (okUpd dAna) with
          result := PyVal.dict (setKey (res2 ctx (rAud r0)) "main_topic"
            ctx.main_topic) } := setResult_eq _ _ _ (res2 ctx (rAud r0)) rfl
  have e11 : setResult { modifyStep (modifyStep (stage2 tra ctx (stage1 pre st0
        r0) (rAud r0)) "analyze" (stageUpd ana)) "analyze" (okUpd dAna) with
          result := PyVal.dict (setKey (res2 ctx (rAud r0)) "main_topic"
            ctx.main_topic) } "subtopics" ctx.subtopics
      = some { modifyStep (modifyStep (stage2 tra ctx (stage1 pre st0 r0)
            (rAud r0)) "analyze" (stageUpd ana)) "analyze" (okUpd dAna) with
          result := PyVal.dict (setKey (setKey (res2 ctx (rAud r0)) "main_topic"
            ctx.main_topic) "subtopics" ctx.subtopics) } :=
    setResult_eq _ _ _ (setKey (res2 ctx (rAud r0)) "main_topic"
      ctx.main_topic) rfl
  have e12 : setResult { modifyStep (modifyStep (stage2 tra ctx (stage1 pre st0
        r0) (rAud r0)) "analyze" (stageUpd ana)) "analyze" (okUpd dAna) with
          result := PyVal.dict (setKey (setKey (res2 ctx (rAud r0)) "main_topic"
            ctx.main_topic) "subtopics" ctx.subtopics) }
        "truth_statements_md" ctx.truth_statements_md
      = some { modifyStep (modifyStep (stage2 tra ctx (stage1 pre st0 r0)
            (rAud r0)) "analyze" (stageUpd ana)) "analyze" (okUpd dAna) with
          result := PyVal.dict (setKey (setKey (setKey (res2 ctx (rAud r0))
            "main_topic" ctx.main_topic) "subtopics" ctx.subtopics)
            "truth_statements_md" ctx.truth_statements_md) } :=
    setResult_eq _ _ _ (setKey (setKey (res2 ctx (rAud r0)) "main_topic"
      ctx.main_topic) "subtopics" ctx.subtopics) rfl
  have e13 : setResult { modifyStep (modifyStep (stage2 tra ctx (stage1 pre st0
        r0) (rAud r0)) "analyze" (stageUpd ana)) "analyze" (okUpd dAna) with
          result := PyVal.dict (setKey (setKey (setKey (res2 ctx (rAud r0))
            "main_topic" ctx.main_topic) "subtopics" ctx.subtopics)
            "truth_statements_md" ctx.truth_statements_md) }
        "original_filename" (PyVal.str ctx.original_filename)
      = some (stage3 ana ctx (stage2 tra ctx (stage1 pre st0 r0) (rAud r0))
          (res2 ctx (rAud r0))) :=
    setResult_eq _ _ _ (setKey (setKey (setKey (res2 ctx (rAud r0))
      "main_topic" ctx.main_topic) "subtopics" ctx.subtopics)
      "truth_statements_md" ctx.truth_statements_md) rfl
  simp only [dPre, dTra, dAna] at e2 e3 e5 e6 e7 e9 e10 e11 e12 e13
  unfold run_try
  simp [hc0, hc1, hc2, hc3, hc4, hc5, e1, e2, e3, e4, e5, e6, e7, e8, e9, e10,
    e11, e12, e13, orRaise_some]

theorem run_try_c2 (canc : Nat → Bool) (pre tra ana : StageRun) (ctx : Ctx)
    (st0 : PipelineState) (a b c : StepState) (r0 : List (String × PyVal))
    (hst : st0.steps = [("preprocess", a), ("transcribe", b), ("analyze", c)])
    (hres : st0.result = PyVal.dict r0)
    (hc0 : canc 0 = false) (hc1 : canc 1 = false) (hc2 : canc 2 = true)
    (hp : pre.err = Option.none) :
    run_try canc pre tra ana ctx st0
      = Except.ok (cancelStop (stage1 pre st0 r0)) := by
  have hst1 : (modifyStep st0 "preprocess" (stageUpd pre)).steps
      = [("preprocess", stageUpd pre a), ("transcribe", b), ("analyze", c)] :=
    modify3_pre _ _ _ _ _ hst
  have e1 : stageRun st0 "preprocess" pre
      = Except.ok (modifyStep st0 "preprocess" (stageUpd pre)) := by
    rw [stageRun_eq st0 "preprocess" pre (by simp [getStep3_pre _ _ _ _ hst]), hp]
  have e2 : set_step_ok (modifyStep st0 "preprocess" (stageUpd pre))
        "preprocess" dPre
      = some (modifyStep (modifyStep st0 "preprocess" (stageUpd pre))
          "preprocess" (okUpd dPre)) :=
    set_step_ok_eq _ _ _ (by simp [getStep3_pre _ _ _ _ hst1])
  have e3 : setResult (modifyStep (modifyStep st0 "preprocess" (stageUpd pre))
        "preprocess" (okUpd dPre)) "audio_ready" (PyVal.bool true)
      = some (stage1 pre st0 r0) := setResult_eq _ _ _ r0 hres
  simp only [dPre] at e2 e3
  unfold run_try
  simp [hc0, hc1, hc2, e1, e2, e3, orRaise_some]

theorem run_try_traFail (canc : Nat → Bool) (pre tra ana : StageRun)
    (ctx : Ctx) (st0 : PipelineState) (a b c : StepState)
    (r0 : List (String × PyVal)) (e : String)
    (hst : st0.steps = [("preprocess", a), ("transcribe", b), ("analyze", c)])
    (hres : st0.result = PyVal.dict r0)
    (hc0 : canc 0 = false) (hc1 : canc 1 = false) (hc2 : canc 2 = false)
    (hp : pre.err = Option.none) (ht : tra.err = some e) :
    run_try canc pre tra ana ctx st0
      = Except.error (modifyStep (stage1 pre st0 r0) "transcribe"
          (stageUpd tra), e) := by
  have hst1 : (modifyStep st0 "preprocess" (stageUpd pre)).steps
      = [("preprocess", stageUpd pre a), ("transcribe", b), ("analyze", c)] :=
    modify3_pre _ _ _ _ _ hst
  have e1 : stageRun st0 "preprocess" pre
      = Except.ok (modifyStep st0 "preprocess" (stageUpd pre)) := by
    rw [stageRun_eq st0 "preprocess" pre (by simp [getStep3_pre _ _ _ _ hst]), hp]
  have e2 : set_step_ok (modifyStep st0 "preprocess" (stageUpd pre))
        "preprocess" dPre
      = some (modifyStep (modifyStep st0 "preprocess" (stageUpd pre))
          "preprocess" (okUpd dPre)) :=
    set_step_ok_eq _ _ _ (by simp [getStep3_pre _ _ _ _ hst1])
  have e3 : setResult (modifyStep (modifyStep st0 "preprocess" (stageUpd pre))
        "preprocess" (okUpd dPre)) "audio_ready" (PyVal.bool true)
      = some (stage1 pre st0 r0) := setResult_eq _ _ _ r0 hres
  have hstS1 : (stage1 pre st0 r0).steps
      = [("preprocess", okUpd dPre (stageUpd pre a)), ("transcribe", b),
         ("analyze", c)] := stage1_steps _ _ _ _ _ _ hst
  have e4 : stageRun (stage1 pre st0 r0) "transcribe" tra
      = Except.error (modifyStep (stage1 pre st0 r0) "transcribe"
          (stageUpd tra), e) := by
    rw [stageRun_eq _ "transcribe" tra (by simp [getStep3_tra _ _ _ _ hstS1]), ht]
  simp only [dPre] at e2 e3
  unfold run_try
  simp [hc0, hc1, hc2, e1, e2, e3, e4, orRaise_some]

theorem run_try_c3 (canc : Nat → Bool) (pre tra ana : StageRun) (ctx : Ctx)
    (st0 : PipelineState) (a b c : StepState) (r0 : List (String × PyVal))
    (hst : st0.steps = [("preprocess", a), ("transcribe", b), ("analyze", c)])
    (hres : st0.result = PyVal.dict r0)
    (hc0 : canc 0 = false) (hc1 : canc 1 = false) (hc2 : canc 2 = false)
    (hc3 : canc 3 = true)
    (hp : pre.err = Option.none) (ht : tra.err = Option.none) :
    run_try canc pre tra ana ctx st0
      = Except.ok (cancelStop (modifyStep (stage1 pre st0 r0) "transcribe"
          (stageUpd tra))) := by
  have hst1 : (modifyStep st0 "preprocess" (stageUpd pre)).steps
      = [("preprocess", stageUpd pre a), ("transcribe", b), ("analyze", c)] :=
    modify3_pre _ _ _ _ _ hst
  have e1 : stageRun st0 "preprocess" pre
      = Except.ok (modifyStep st0 "preprocess" (stageUpd pre)) := by
    rw [stageRun_eq st0 "preprocess" pre (by simp [getStep3_pre _ _ _ _ hst]), hp]
  have e2 : set_step_ok (modifyStep st0 "preprocess" (stageUpd pre))
        "preprocess" dPre
      = some (modifyStep (modifyStep st0 "preprocess" (stageUpd pre))
          "preprocess" (okUpd dPre)) :=
    set_step_ok_eq _ _ _ (by simp [getStep3_pre _ _ _ _ hst1])
  have e3 : setResult (modifyStep (modifyStep st0 "preprocess" (stageUpd pre))
        "preprocess" (okUpd dPre)) "audio_ready" (PyVal.bool true)
      = some (stage1 pre st0 r0) := setResult_eq _ _ _ r0 hres
  have hstS1 : (stage1 pre st0 r0).steps
      = [("preprocess", okUpd dPre (stageUpd pre a)), ("transcribe", b),
         ("analyze", c)] := stage1_steps _ _ _ _ _ _ hst
  have e4 : stageRun (stage1 pre st0 r0) "transcribe" tra
      = Except.ok (modifyStep (stage1 pre st0 r0) "transcribe" (stageUpd tra)) := by
    rw [stageRun_eq _ "transcribe" tra (by simp [getStep3_tra _ _ _ _ hstS1]), ht]
  simp only [dPre] at e2 e3
  unfold run_try
  simp [hc0, hc1, hc2, hc3, e1, e2, e3, e4, orRaise_some]

theorem run_try_c4 (canc : Nat → Bool) (pre tra ana : StageRun) (ctx : Ctx)
    (st0 : PipelineState) (a b c : StepState) (r0 : List (String × PyVal))
    (hst : st0.steps = [("preprocess", a), ("transcribe", b), ("analyze", c)])
    (hres : st0.result = PyVal.dict r0)
    (hc0 : canc 0 = false) (hc1 : canc 1 = false) (hc2 : canc 2 = false)
    (hc3 : canc 3 = false) (hc4 : canc 4 = true)
    (hp : pre.err = Option.none) (ht : tra.err = Option.none) :
    run_try canc pre tra ana ctx st0
      = Except.ok (cancelStop (stage2 tra ctx (stage1 pre st0 r0) (rAud r0))) := by
  have hst1 : (modifyStep st0 "preprocess" (stageUpd pre)).steps
      = [("preprocess", stageUpd pre a), ("transcribe", b), ("analyze", c)] :=
    modify3_pre _ _ _ _ _ hst
  have e1 : stageRun st0 "preprocess" pre
      = Except.ok (modifyStep st0 "preprocess" (stageUpd pre)) := by
    rw [stageRun_eq st0 "preprocess" pre (by simp [getStep3_pre _ _ _ _ hst]), hp]
  have e2 : set_step_ok (modifyStep st0 "preprocess" (stageUpd pre))
        "preprocess" dPre
      = some (modifyStep (modifyStep st0 "preprocess" (stageUpd pre))
          "preprocess" (okUpd dPre)) :=
    set_step_ok_eq _ _ _ (by simp [getStep3_pre _ _ _ _ hst1])
  have e3 : setResult (modifyStep (modifyStep st0 "preprocess" (stageUpd pre))
        "preprocess" (okUpd dPre)) "audio_ready" (PyVal.bool true)
      = some (stage1 pre st0 r0) := setResult_eq _ _ _ r0 hres
  have hstS1 : (stage1 pre st0 r0).steps
      = [("preprocess", okUpd dPre (stageUpd pre a)), ("transcribe", b),
         ("analyze", c)] := stage1_steps _ _ _ _ _ _ hst
  have e4 : stageRun (stage1 pre st0 r0) "transcribe" tra
      = Except.ok (modifyStep (stage1 pre st0 r0) "transcribe" (stageUpd tra)) := by
    rw [stageRun_eq _ "transcribe" tra (by simp [getStep3_tra _ _ _ _ hstS1]), ht]
  have hst4 : (modifyStep (stage1 pre st0 r0) "transcribe" (stageUpd tra)).steps
      = [("preprocess", okUpd dPre (stageUpd pre a)),
         ("transcribe", stageUpd tra b), ("analyze", c)] :=
    modify3_tra _ _ _ _ _ hstS1
  have e5 : set_step_ok (modifyStep (stage1 pre st0 r0) "transcribe"
        (stageUpd tra)) "transcribe" (dTra ctx)
      = some (modifyStep (modifyStep (stage1 pre st0 r0) "transcribe"
          (stageUpd tra)) "transcribe" (okUpd (dTra ctx))) :=
    set_step_ok_eq _ _ _ (by simp [getStep3_tra _ _ _ _ hst4])
  have e6 : setResult (modifyStep (modifyStep (stage1 pre st0 r0) "transcribe"
        (stageUpd tra)) "transcribe" (okUpd (dTra ctx)))
        "transcription" ctx.transcription
      = some { modifyStep (modifyStep (stage1 pre st0 r0) "transcribe"
            (stageUpd tra)) "transcribe" (okUpd (dTra ctx)) with
          result := PyVal.dict (setKey (rAud r0) "transcription"
            ctx.transcription) } := setResult_eq _ _ _ (rAud r0) rfl
  have e7 : setResult { modifyStep (modifyStep (stage1 pre st0 r0) "transcribe"
        (stageUpd tra)) "transcribe" (okUpd (dTra ctx)) with
          result := PyVal.dict (setKey (rAud r0) "transcription"
            ctx.transcription) } "timestamps" (PyVal.list ctx.timestamps)
      = some (stage2 tra ctx (stage1 pre st0 r0) (rAud r0)) :=
    setResult_eq _ _ _ (setKey (rAud r0) "transcription" ctx.transcription) rfl
  simp only [dPre, dTra] at e2 e3 e5 e6 e7
  unfold run_try
  simp [hc0, hc1, hc2, hc3, hc4, e1, e2, e3, e4, e5, e6, e7, orRaise_some]

theorem run_try_anaFail (canc : Nat → Bool) (pre tra ana : StageRun)
    (ctx : Ctx) (st0 : PipelineState) (a b c : StepState)
    (r0 : List (String × PyVal)) (e : String)
    (hst : st0.steps = [("preprocess", a), ("transcribe", b), ("analyze", c)])
    (hres : st0.result = PyVal.dict r0)
    (hc0 : canc 0 = false) (hc1 : canc 1 = false) (hc2 : canc 2 = false)
    (hc3 : canc 3 = false) (hc4 : canc 4 = false)
    (hp : pre.err = Option.none) (ht : tra.err = Option.none)
    (ha : ana.err = some e) :
    run_try canc pre tra ana ctx st0
      = Except.error (modifyStep (stage2 tra ctx (stage1 pre st0 r0) (rAud r0))
          "analyze" (stageUpd ana), e) := by
  have hst1 : (modifyStep st0 "preprocess" (stageUpd pre)).steps
      = [("preprocess", stageUpd pre a), ("transcribe", b), ("analyze", c)] :=
    modify3_pre _ _ _ _ _ hst
  have e1 : stageRun st0 "preprocess" pre
      = Except.ok (modifyStep st0 "preprocess" (stageUpd pre)) := by
    rw [stageRun_eq st0 "preprocess" pre (by simp [getStep3_pre _ _ _ _ hst]), hp]
  have e2 : set_step_ok (modifyStep st0 "preprocess" (stageUpd pre))
        "preprocess" dPre
      = some (modifyStep (modifyStep st0 "preprocess" (stageUpd pre))
          "preprocess" (okUpd dPre)) :=
    set_step_ok_eq _ _ _ (by simp [getStep3_pre _ _ _ _ hst1])
  have e3 : setResult (modifyStep (modifyStep st0 "preprocess" (stageUpd pre))
        "preprocess" (okUpd dPre)) "audio_ready" (PyVal.bool true)
      = some (stage1 pre st0 r0) := setResult_eq _ _ _ r0 hres
  have hstS1 : (stage1 pre st0 r0).steps
      = [("preprocess", okUpd dPre (stageUpd pre a)), ("transcribe", b),
         ("analyze", c)] := stage1_steps _ _ _ _ _ _ hst
  have e4 : stageRun (stage1 pre st0 r0) "transcribe" tra
      = Except.ok (modifyStep (stage1 pre st0 r0) "transcribe" (stageUpd tra)) := by
    rw [stageRun_eq _ "transcribe" tra (by simp [getStep3_tra _ _ _ _ hstS1]), ht]
  have hst4 : (modifyStep (stage1 pre st0 r0) "transcribe" (stageUpd tra)).steps
      = [("preprocess", okUpd dPre (stageUpd pre a)),
         ("transcribe", stageUpd tra b), ("analyze", c)] :=
    modify3_tra _ _ _ _ _ hstS1
  have e5 : set_step_ok (modifyStep (stage1 pre st0 r0) "transcribe"
        (stageUpd tra)) "transcribe" (dTra ctx)
      = some (modifyStep (modifyStep (stage1 pre st0 r0) "transcribe"
          (stageUpd tra)) "transcribe" (okUpd (dTra ctx))) :=
    set_step_ok_eq _ _ _ (by simp [getStep3_tra _ _ _ _ hst4])
  have e6 : setResult (modifyStep (modifyStep (stage1 pre st0 r0) "transcribe"
        (stageUpd tra)) "transcribe" (okUpd (dTra ctx)))
        "transcription" ctx.transcription
      = some { modifyStep (modifyStep (stage1 pre st0 r0) "transcribe"
            (stageUpd tra)) "transcribe" (okUpd (dTra ctx)) with
          result := PyVal.dict (setKey (rAud r0) "transcription"
            ctx.transcription) } := setResult_eq _ _ _ (rAud r0) rfl
  have e7 : setResult { modifyStep (modifyStep (stage1 pre st0 r0) "transcribe"
        (stageUpd tra)) "transcribe" (okUpd (dTra ctx)) with
          result := PyVal.dict (setKey (rAud r0) "transcription"
            ctx.transcription) } "timestamps" (PyVal.list ctx.timestamps)
      = some (stage2 tra ctx (stage1 pre st0 r0) (rAud r0)) :=
    setResult_eq _ _ _ (setKey (rAud r0) "transcription" ctx.transcription) rfl
  have hstS2 : (stage2 tra ctx (stage1 pre st0 r0) (rAud r0)).steps
      = [("preprocess", okUpd dPre (stageUpd pre a)),
         ("transcribe", okUpd (dTra ctx) (stageUpd tra b)), ("analyze", c)] :=
    stage2_steps _ _ _ _ _ _ _ hstS1
  have e8 : stageRun (stage2 tra ctx (stage1 pre st0 r0) (rAud r0)) "analyze" ana
      = Except.error (modifyStep (stage2 tra ctx (stage1 pre st0 r0) (rAud r0))
          "analyze" (stageUpd ana), e) := by
    rw [stageRun_eq _ "analyze" ana (by simp [getStep3_ana _ _ _ _ hstS2]), ha]
  simp only [dPre, dTra] at e2 e3 e5 e6 e7
  unfold run_try
  simp [hc0, hc1, hc2, hc3, hc4, e1, e2, e3, e4, e5, e6, e7, e8, orRaise_some]

theorem run_try_c5 (canc : Nat → Bool) (pre tra ana : StageRun) (ctx : Ctx)
    (st0 : PipelineState) (a b c : StepState) (r0 : List (String × PyVal))
    (hst : st0.steps = [("preprocess", a), ("transcribe", b), ("analyze", c)])
    (hres : st0.result = PyVal.dict r0)
    (hc0 : canc 0 = false) (hc1 : canc 1 = false) (hc2 : canc 2 = false)
    (hc3 : canc 3 = false) (hc4 : canc 4 = false) (hc5 : canc 5 = true)
    (hp : pre.err = Option.none) (ht : tra.err = Option.none)
    (ha : ana.err = Option.none) :
    run_try canc pre tra ana ctx st0
      = Except.ok (cancelStop (modifyStep (stage2 tra ctx (stage1 pre st0 r0)
          (rAud r0)) "analyze" (stageUpd ana))) := by
  have hst1 : (modifyStep st0 "preprocess" (stageUpd pre)).steps
      = [("preprocess", stageUpd pre a), ("transcribe", b), ("analyze", c)] :=
    modify3_pre _ _ _ _ _ hst
  have e1 : stageRun st0 "preprocess" pre
      = Except.ok (modifyStep st0 "preprocess" (stageUpd pre)) := by
    rw [stageRun_eq st0 "preprocess" pre (by simp [getStep3_pre _ _ _ _ hst]), hp]
  have e2 : set_step_ok (modifyStep st0 "preprocess" (stageUpd pre))
        "preprocess" dPre
      = some (modifyStep (modifyStep st0 "preprocess" (stageUpd pre))
          "preprocess" (okUpd dPre)) :=
    set_step_ok_eq _ _ _ (by simp [getStep3_pre _ _ _ _ hst1])
  have e3 : setResult (modifyStep (modifyStep st0 "preprocess" (stageUpd pre))
        "preprocess" (okUpd dPre)) "audio_ready" (PyVal.bool true)
      = some (stage1 pre st0 r0) := setResult_eq _ _ _ r0 hres
  have hstS1 : (stage1 pre st0 r0).steps
      = [("preprocess", okUpd dPre (stageUpd pre a)), ("transcribe", b),
         ("analyze", c)] := stage1_steps _ _ _ _ _ _ hst
  have e4 : stageRun (stage1 pre st0 r0) "transcribe" tra
      = Except.ok (modifyStep (stage1 pre st0 r0) "transcribe" (stageUpd tra)) := by
    rw [stageRun_eq _ "transcribe" tra (by simp [getStep3_tra _ _ _ _ hstS1]), ht]
  have hst4 : (modifyStep (stage1 pre st0 r0) "transcribe" (stageUpd tra)).steps
      = [("preprocess", okUpd dPre (stageUpd pre a)),
         ("transcribe", stageUpd tra b), ("analyze", c)] :=
    modify3_tra _ _ _ _ _ hstS1
  have e5 : set_step_ok (modifyStep (stage1 pre st0 r0) "transcribe"
        (stageUpd tra)) "transcribe" (dTra ctx)
      = some (modifyStep (modifyStep (stage1 pre st0 r0) "transcribe"
          (stageUpd tra)) "transcribe" (okUpd (dTra ctx))) :=
    set_step_ok_eq _ _ _ (by simp [getStep3_tra _ _ _ _ hst4])
  have e6 : setResult (modifyStep (modifyStep (stage1 pre st0 r0) "transcribe"
        (stageUpd tra)) "transcribe" (okUpd (dTra ctx)))
        "transcription" ctx.transcription
      = some { modifyStep (modifyStep (stage1 pre st0 r0) "transcribe"
            (stageUpd tra)) "transcribe" (okUpd (dTra ctx)) with
          result := PyVal.dict (setKey (rAud r0) "transcription"
            ctx.transcription) } := setResult_eq _ _ _ (rAud r0) rfl
  have e7 : setResult { modifyStep (modifyStep (stage1 pre st0 r0) "transcribe"
        (stageUpd tra)) "transcribe" (okUpd (dTra ctx)) with
          result := PyVal.dict (setKey (rAud r0) "transcription"
            ctx.transcription) } "timestamps" (PyVal.list ctx.timestamps)
      = some (stage2 tra ctx (stage1 pre st0 r0) (rAud r0)) :=
    setResult_eq _ _ _ (setKey (rAud r0) "transcription" ctx.transcription) rfl
  have hstS2 : (stage2 tra ctx (stage1 pre st0 r0) (rAud r0)).steps
      = [("preprocess", okUpd dPre (stageUpd pre a)),
         ("transcribe", okUpd (dTra ctx) (stageUpd tra b)), ("analyze", c)] :=
    stage2_steps _ _ _ _ _ _ _ hstS1
  have e8 : stageRun (stage2 tra ctx (stage1 pre st0 r0) (rAud r0)) "analyze" ana
      = Except.ok (modifyStep (stage2 tra ctx (stage1 pre st0 r0) (rAud r0))
          "analyze" (stageUpd ana)) := by
    rw [stageRun_eq _ "analyze" ana (by simp [getStep3_ana _ _ _ _ hstS2]), ha]
  simp only [dPre, dTra] at e2 e3 e5 e6 e7
  unfold run_try
  simp [hc0, hc1, hc2, hc3, hc4, hc5, e1, e2, e3, e4, e5, e6, e7, e8,
    orRaise_some]

theorem okUpd_eq_mk (d : String) (s : StepState) :
    okUpd d s = ⟨s.name, .completed, .str "Done", .str d, .float 100, .none,
      s.start_time⟩ := rfl

/-- The record as `run_pipeline` leaves it after lines 422-427, i.e. the state
the `try` body starts from. -/
def stStart (fh : Option String) (fid : Option Int) (st : PipelineState) :
    PipelineState :=
  applyPresets fh fid { st with status := PyVal.str "running", cancelled := false }

theorem run_pipeline_rec_eq (canc : Nat → Bool) (pre tra ana : StageRun)
    (ctx : Ctx) (fh : Option String) (fid : Option Int) (st : PipelineState) :
    run_pipeline_rec canc pre tra ana ctx fh fid st
      = match run_try canc pre tra ana ctx (stStart fh fid st) with
        | Except.ok st' => (st', Option.none)
        | Except.error (st', e) => (failWith st' e, some e) := rfl

theorem stStart_steps (fh : Option String) (fid : Option Int)
    (st : PipelineState) : (stStart fh fid st).steps = st.steps :=
  (applyPresets_steps _ _ _).trans rfl

theorem stStart_result (fh : Option String) (fid : Option Int)
    (st : PipelineState) : (stStart fh fid st).result = st.result :=
  (applyPresets_result _ _ _).trans rfl

theorem stStart_fresh_steps (jid fn : String) (fh0 fh : Option String)
    (fid0 fid : Option Int) :
    (stStart fh fid (freshState jid fn fh0 fid0)).steps
      = [("preprocess", defStep "Preprocess audio"),
         ("transcribe", defStep "Transcribe (Whisper)"),
         ("analyze", defStep "Extract topics & truth statements")] :=
  (stStart_steps _ _ _).trans rfl

theorem stStart_fresh_result (jid fn : String) (fh0 fh : Option String)
    (fid0 fid : Option Int) :
    (stStart fh fid (freshState jid fn fh0 fid0)).result = PyVal.dict [] :=
  (stStart_result _ _ _).trans rfl

/-- C6: a pipeline run in which all three stage executors return without error
and no cancellation is observed at any checkpoint ends with JobRecord status
`completed`, all three stages `COMPLETED` with `progress = 100`,
`eta_seconds = None` and message `"Done"`, and a fully populated result
(audio-ready flag, transcription, timestamps, main topic, subtopics, truth
statements, original filename); no exception propagates. -/
theorem c6_normal_completion (canc : Nat → Bool) (pre tra ana : StageRun)
    (ctx : Ctx) (jid fn : String) (fh : Option String) (fid : Option Int)
    (hc : ∀ i, canc i = false)
    (hp : pre.err = Option.none) (ht : tra.err = Option.none)
    (ha : ana.err = Option.none) :
    (run_pipeline_rec canc pre tra ana ctx fh fid (freshState jid fn fh fid)).2
        = Option.none
    ∧ (run_pipeline_rec canc pre tra ana ctx fh fid
        (freshState jid fn fh fid)).1.status = PyVal.str "completed"
    ∧ (run_pipeline_rec canc pre tra ana ctx fh fid
        (freshState jid fn fh fid)).1.steps
      = [("preprocess", ⟨.str "Preprocess audio", .completed, .str "Done",
            .str "Converted to WAV and normalized", .float 100, .none,
            .float pre.startClock⟩),
         ("transcribe", ⟨.str "Transcribe (Whisper)", .completed, .str "Done",
            .str (toString ctx.timestamps.length ++ " segments"), .float 100,
            .none, .float tra.startClock⟩),
         ("analyze", ⟨.str "Extract topics & truth statements", .completed,
            .str "Done",
            .str "Main topic, subtopics, and truth statements extracted",
            .float 100, .none, .float ana.startClock⟩)]
    ∧ (run_pipeline_rec canc pre tra ana ctx fh fid
        (freshState jid fn fh fid)).1.result
      = PyVal.dict [("audio_ready", .bool true),
          ("transcription", ctx.transcription),
          ("timestamps", .list ctx.timestamps),
          ("main_topic", ctx.main_topic),
          ("subtopics", ctx.subtopics),
          ("truth_statements_md", ctx.truth_statements_md),
          ("original_filename", .str ctx.original_filename)] := by
  have hsteps := stStart_fresh_steps jid fn fh fh fid fid
  have hres := stStart_fresh_result jid fn fh fh fid fid
  have hrun := run_try_success canc pre tra ana ctx _ _ _ _ [] hsteps hres
    (hc 0) (hc 1) (hc 2) (hc 3) (hc 4) (hc 5) hp ht ha
  have hS1 := stage1_steps pre _ [] _ _ _ hsteps
  have hS2 := stage2_steps tra ctx _ (rAud []) _ _ _ hS1
  have hS3 := stage3_steps ana ctx _ (res2 ctx (rAud [])) _ _ _ hS2
  have hlit1 : okUpd dPre (stageUpd pre (defStep "Preprocess audio"))
      = ⟨.str "Preprocess audio", .completed, .str "Done",
         .str "Converted to WAV and normalized", .float 100, .none,
         .float pre.startClock⟩ := by
    obtain ⟨hn, _, hs, _⟩ := stageUpd_facts pre (defStep "Preprocess audio") rfl
    rw [okUpd_eq_mk, hn, hs]
    rfl
  have hlit2 : okUpd (dTra ctx) (stageUpd tra (defStep "Transcribe (Whisper)"))
      = ⟨.str "Transcribe (Whisper)", .completed, .str "Done",
         .str (toString ctx.timestamps.length ++ " segments"), .float 100,
         .none, .float tra.startClock⟩ := by
    obtain ⟨hn, _, hs, _⟩ := stageUpd_facts tra (defStep "Transcribe (Whisper)") rfl
    rw [okUpd_eq_mk, hn, hs]
    rfl
  have hlit3 : okUpd dAna (stageUpd ana
        (defStep "Extract topics & truth statements"))
      = ⟨.str "Extract topics & truth statements", .completed, .str "Done",
         .str "Main topic, subtopics, and truth statements extracted",
         .float 100, .none, .float ana.startClock⟩ := by
    obtain ⟨hn, _, hs, _⟩ := stageUpd_facts ana
      (defStep "Extract topics & truth statements") rfl
    rw [okUpd_eq_mk, hn, hs]
    rfl
  have hpr : run_pipeline_rec canc pre tra ana ctx fh fid
        (freshState jid fn fh fid)
      = ({ stage3 ana ctx (stage2 tra ctx (stage1 pre
            (stStart fh fid (freshState jid fn fh fid)) []) (rAud []))
            (res2 ctx (rAud [])) with
          status := PyVal.str "completed" }, Option.none) := by
    rw [run_pipeline_rec_eq, hrun]
  refine ⟨?_, ?_, ?_, ?_⟩
  · rw [hpr]
  · rw [hpr]
  · rw [hpr]
    show (stage3 ana ctx (stage2 tra ctx (stage1 pre _ []) (rAud []))
        (res2 ctx (rAud []))).steps = _
    rw [hS3, hlit1, hlit2, hlit3]
  · rw [hpr]
    rfl

/-- Concrete executor oracle for witnesses: returns at clock 0, no reports, no
error. -/
def noRun : StageRun := ⟨0, [], Option.none⟩

/-- Concrete executor outputs for witnesses. -/
def ctx0 : Ctx :=
  ⟨.str "T", [.dict [("text", .str "hi")]], .str "M", .list [.str "s"],
   .str "md", "f.wav"⟩

/-- The all-false cancellation oracle (no cancel request ever lands). -/
def cFalse : Nat → Bool := fun _ => false

/-- Witness for C6: the normal-completion theorem applied at a concrete
input. -/
theorem c6_normal_completion_witness :
    (∀ i, cFalse i = false) ∧ noRun.err = Option.none
    ∧ ((run_pipeline_rec cFalse noRun noRun noRun ctx0 Option.none Option.none
          (freshState "j" "f.wav" Option.none Option.none)).2 = Option.none
      ∧ (run_pipeline_rec cFalse noRun noRun noRun ctx0 Option.none Option.none
          (freshState "j" "f.wav" Option.none Option.none)).1.status
          = PyVal.str "completed"
      ∧ (run_pipeline_rec cFalse noRun noRun noRun ctx0 Option.none Option.none
          (freshState "j" "f.wav" Option.none Option.none)).1.steps
        = [("preprocess", ⟨.str "Preprocess audio", .completed, .str "Done",
              .str "Converted to WAV and normalized", .float 100, .none,
              .float noRun.startClock⟩),
           ("transcribe", ⟨.str "Transcribe (Whisper)", .completed, .str "Done",
              .str (toString ctx0.timestamps.length ++ " segments"), .float 100,
              .none, .float noRun.startClock⟩),
           ("analyze", ⟨.str "Extract topics & truth statements", .completed,
              .str "Done",
              .str "Main topic, subtopics, and truth statements extracted",
              .float 100, .none, .float noRun.startClock⟩)]
      ∧ (run_pipeline_rec cFalse noRun noRun noRun ctx0 Option.none Option.none
          (freshState "j" "f.wav" Option.none Option.none)).1.result
        = PyVal.dict [("audio_ready", .bool true),
            ("transcription", ctx0.transcription),
            ("timestamps", .list ctx0.timestamps),
            ("main_topic", ctx0.main_topic),
            ("subtopics", ctx0.subtopics),
            ("truth_statements_md", ctx0.truth_statements_md),
            ("original_filename", .str ctx0.original_filename)]) :=
  ⟨fun _ => rfl, rfl,
   c6_normal_completion cFalse noRun noRun noRun ctx0 "j" "f.wav" Option.none
     Option.none (fun _ => rfl) rfl rfl rfl⟩

/-- C7: a job cancelled while the transcribe stage is running — both stage
executors return without error and the cancellation is first observed at the
checkpoint right after the transcribe executor returns (runner.py 496) — ends
with status `cancelled`, the cancellation message in `error`, a transcribe
stage that is `RUNNING` (in particular not `FAILED`), and an analyze stage
never entered (still exactly the freshly created `PENDING` step). -/
theorem c7_cancel_during_transcribe (canc : Nat → Bool) (pre tra ana : StageRun)
    (ctx : Ctx) (jid fn : String) (fh : Option String) (fid : Option Int)
    (hc0 : canc 0 = false) (hc1 : canc 1 = false) (hc2 : canc 2 = false)
    (hc3 : canc 3 = true)
    (hp : pre.err = Option.none) (ht : tra.err = Option.none) :
    (run_pipeline_rec canc pre tra ana ctx fh fid
        (freshState jid fn fh fid)).1.status = PyVal.str "cancelled"
    ∧ (run_pipeline_rec canc pre tra ana ctx fh fid
        (freshState jid fn fh fid)).1.error = PyVal.str "Cancelled by user"
    ∧ (∃ s, getStep (run_pipeline_rec canc pre tra ana ctx fh fid
          (freshState jid fn fh fid)).1 "transcribe" = some s
        ∧ s.status = StepStatus.running ∧ s.status ≠ StepStatus.failed)
    ∧ getStep (run_pipeline_rec canc pre tra ana ctx fh fid
        (freshState jid fn fh fid)).1 "analyze"
      = some (defStep "Extract topics & truth statements") := by
  have hsteps := stStart_fresh_steps jid fn fh fh fid fid
  have hres := stStart_fresh_result jid fn fh fh fid fid
  have hrun := run_try_c3 canc pre tra ana ctx _ _ _ _ [] hsteps hres hc0 hc1
    hc2 hc3 hp ht
  have hpr : run_pipeline_rec canc pre tra ana ctx fh fid
        (freshState jid fn fh fid)
      = (cancelStop (modifyStep (stage1 pre
          (stStart fh fid (freshState jid fn fh fid)) []) "transcribe"
          (stageUpd tra)), Option.none) := by
    rw [run_pipeline_rec_eq, hrun]
  have hS1 := stage1_steps pre _ [] _ _ _ hsteps
  have hM := modify3_tra _ _ _ _ (stageUpd tra) hS1
  have htrs : (stageUpd tra (defStep "Transcribe (Whisper)")).status
      = StepStatus.running :=
    (stageUpd_facts tra (defStep "Transcribe (Whisper)") rfl).2.1
  refine ⟨?_, ?_, ?_, ?_⟩
  · rw [hpr]; rfl
  · rw [hpr]; rfl
  · refine ⟨stageUpd tra (defStep "Transcribe (Whisper)"), ?_, htrs, ?_⟩
    · rw [hpr]
      exact getStep3_tra _ _ _ _ hM
    · rw [htrs]
      decide
  · rw [hpr]
    exact getStep3_ana _ _ _ _ hM

/-- The cancellation oracle that first observes a cancel request at
checkpoint 3 (right after the transcribe executor returns). -/
def cAt3 : Nat → Bool := fun i => decide (3 ≤ i)

/-- Witness for C7 at a concrete input. -/
theorem c7_cancel_during_transcribe_witness :
    cAt3 0 = false ∧ cAt3 3 = true ∧ noRun.err = Option.none
    ∧ ((run_pipeline_rec cAt3 noRun noRun noRun ctx0 Option.none Option.none
          (freshState "j" "f.wav" Option.none Option.none)).1.status
        = PyVal.str "cancelled"
      ∧ (run_pipeline_rec cAt3 noRun noRun noRun ctx0 Option.none Option.none
          (freshState "j" "f.wav" Option.none Option.none)).1.error
        = PyVal.str "Cancelled by user"
      ∧ (∃ s, getStep (run_pipeline_rec cAt3 noRun noRun noRun ctx0 Option.none
            Option.none (freshState "j" "f.wav" Option.none Option.none)).1
            "transcribe" = some s
          ∧ s.status = StepStatus.running ∧ s.status ≠ StepStatus.failed)
      ∧ getStep (run_pipeline_rec cAt3 noRun noRun noRun ctx0 Option.none
          Option.none (freshState "j" "f.wav" Option.none Option.none)).1
          "analyze" = some (defStep "Extract topics & truth statements")) :=
  ⟨rfl, rfl, rfl,
   c7_cancel_during_transcribe cAt3 noRun noRun noRun ctx0 "j" "f.wav"
     Option.none Option.none rfl rfl rfl rfl rfl rfl⟩

/-- The all-true cancellation oracle (a cancel request is visible at every
checkpoint). -/
def cTrue : Nat → Bool := fun _ => true

/-- C2 counterexample: `cancelRequested` is true at the moment the worker
begins executing the job — the record is published with status `running`,
`cancel_job` succeeds and sets the flag, and only then does `run_pipeline`
start — yet the job is NOT cancelled: `run_pipeline` resets `cancelled` to
`False` (runner.py 423), so with no further cancel request the job runs to
`completed` and its preprocess stage is entered (ends `COMPLETED`), refuting
the claim. -/
theorem c2_counterexample :
    (cancel_job "job1" (workerClaim "job1" (add_to_queue "q1" "up" "f.wav" "H1"
        Option.none initRunner)).1).1 = true
    ∧ ((lookupJob (cancel_job "job1" (workerClaim "job1" (add_to_queue "q1"
        "up" "f.wav" "H1" Option.none initRunner)).1).2 "job1").map
        (fun s => s.cancelled) = some true)
    ∧ ((lookupJob (run_pipeline_g cFalse noRun noRun noRun ctx0 "job1" "f.wav"
        (some "H1") Option.none (cancel_job "job1" (workerClaim "job1"
        (add_to_queue "q1" "up" "f.wav" "H1" Option.none initRunner)).1).2).1
        "job1").map (fun s => s.status) = some (PyVal.str "completed"))
    ∧ ((lookupJob (run_pipeline_g cFalse noRun noRun noRun ctx0 "job1" "f.wav"
        (some "H1") Option.none (cancel_job "job1" (workerClaim "job1"
        (add_to_queue "q1" "up" "f.wav" "H1" Option.none initRunner)).1).2).1
        "job1").map (fun s => (getStep s "preprocess").map (fun p => p.status))
        = some (some StepStatus.completed)) :=
  ⟨rfl, rfl, rfl, rfl⟩

/-- C2 amended: `run_pipeline` clears `cancelRequested` on entry (runner.py
423), so a flag set before execution begins is discarded and the job runs
normally; a job is cancelled with no stage entered exactly when a cancel
request lands after that reset and is observed at the FIRST checkpoint
(runner.py 459): then status is `cancelled`, `error` is the cancellation
message, all three stages stay `PENDING`, and no exception propagates. -/
theorem c2_amended :
    (∀ (canc : Nat → Bool) (pre tra ana : StageRun) (ctx : Ctx)
      (jid fn : String) (fh : Option String) (fid : Option Int),
      canc 0 = true →
      ((run_pipeline_rec canc pre tra ana ctx fh fid
          (freshState jid fn fh fid)).1.status = PyVal.str "cancelled"
        ∧ (run_pipeline_rec canc pre tra ana ctx fh fid
          (freshState jid fn fh fid)).1.error = PyVal.str "Cancelled by user"
        ∧ (run_pipeline_rec canc pre tra ana ctx fh fid
          (freshState jid fn fh fid)).1.steps
          = [("preprocess", defStep "Preprocess audio"),
             ("transcribe", defStep "Transcribe (Whisper)"),
             ("analyze", defStep "Extract topics & truth statements")]
        ∧ (run_pipeline_rec canc pre tra ana ctx fh fid
          (freshState jid fn fh fid)).2 = Option.none))
    ∧ (∀ (canc : Nat → Bool) (pre tra ana : StageRun) (ctx : Ctx)
      (jid fn : String) (fh : Option String) (fid : Option Int),
      (∀ i, canc i = false) → pre.err = Option.none → tra.err = Option.none →
      ana.err = Option.none →
      (run_pipeline_rec canc pre tra ana ctx fh fid
        { freshState jid fn fh fid with cancelled := true }).1.status
        = PyVal.str "completed") := by
  constructor
  · intro canc pre tra ana ctx jid fn fh fid hc0
    have hrun := run_try_c0 canc pre tra ana ctx
      (stStart fh fid (freshState jid fn fh fid)) hc0
    have hpr : run_pipeline_rec canc pre tra ana ctx fh fid
          (freshState jid fn fh fid)
        = (cancelStop (stStart fh fid (freshState jid fn fh fid)),
           Option.none) := by
      rw [run_pipeline_rec_eq, hrun]
    refine ⟨?_, ?_, ?_, ?_⟩
    · rw [hpr]; rfl
    · rw [hpr]; rfl
    · rw [hpr]
      show (stStart fh fid (freshState jid fn fh fid)).steps = _
      exact stStart_fresh_steps jid fn fh fh fid fid
    · rw [hpr]
  · intro canc pre tra ana ctx jid fn fh fid hc hp ht ha
    have hsteps : (stStart fh fid
          { freshState jid fn fh fid with cancelled := true }).steps
        = [("preprocess", defStep "Preprocess audio"),
           ("transcribe", defStep "Transcribe (Whisper)"),
           ("analyze", defStep "Extract topics & truth statements")] :=
      (stStart_steps _ _ _).trans rfl
    have hres : (stStart fh fid
          { freshState jid fn fh fid with cancelled := true }).result
        = PyVal.dict [] := (stStart_result _ _ _).trans rfl
    have hrun := run_try_success canc pre tra ana ctx _ _ _ _ [] hsteps hres
      (hc 0) (hc 1) (hc 2) (hc 3) (hc 4) (hc 5) hp ht ha
    have hpr : run_pipeline_rec canc pre tra ana ctx fh fid
          { freshState jid fn fh fid with cancelled := true }
        = ({ stage3 ana ctx (stage2 tra ctx (stage1 pre (stStart fh fid
              { freshState jid fn fh fid with cancelled := true }) [])
              (rAud [])) (res2 ctx (rAud [])) with
            status := PyVal.str "completed" }, Option.none) := by
      rw [run_pipeline_rec_eq, hrun]
    rw [hpr]

/-- Witness for C2's amended theorem at concrete inputs. -/
theorem c2_amended_witness :
    cTrue 0 = true ∧ (∀ i, cFalse i = false)
    ∧ ((run_pipeline_rec cTrue noRun noRun noRun ctx0 Option.none Option.none
          (freshState "j" "f.wav" Option.none Option.none)).1.status
        = PyVal.str "cancelled")
    ∧ ((run_pipeline_rec cFalse noRun noRun noRun ctx0 Option.none Option.none
          { freshState "j" "f.wav" Option.none Option.none with
            cancelled := true }).1.status = PyVal.str "completed") :=
  ⟨rfl, fun _ => rfl,
   (c2_amended.1 cTrue noRun noRun noRun ctx0 "j" "f.wav" Option.none
     Option.none rfl).1,
   c2_amended.2 cFalse noRun noRun noRun ctx0 "j" "f.wav" Option.none
     Option.none (fun _ => rfl) rfl rfl rfl⟩

/-- The list of the three stage statuses of a record, in stage order. -/
def stepStatuses (st : PipelineState) : List StepStatus :=
  st.steps.map (fun p => p.2.status)

theorem failWith_pre (X : PipelineState) (e : String) (s1 s2 s3 : StepState)
    (h : X.steps = [("preprocess", s1), ("transcribe", s2), ("analyze", s3)])
    (h1 : s1.status = .running) :
    (failWith X e).steps
      = [("preprocess", failUpd e s1), ("transcribe", s2), ("analyze", s3)]
    ∧ (failWith X e).status = PyVal.str "failed"
    ∧ (failWith X e).error = PyVal.str e := by
  unfold failWith
  have hfind : ({ X with status := PyVal.str "failed", error := PyVal.str e }
        : PipelineState).steps.find? (fun p => p.2.status == StepStatus.running)
      = some ("preprocess", s1) := by
    show X.steps.find? _ = _
    rw [h]
    simp [List.find?_cons, h1]
  simp only [hfind]
  refine ⟨?_, rfl, rfl⟩
  show (modifyStep _ "preprocess" (failUpd e)).steps = _
  exact modify3_pre _ _ _ _ _ h

theorem failWith_tra (X : PipelineState) (e : String) (s1 s2 s3 : StepState)
    (h : X.steps = [("preprocess", s1), ("transcribe", s2), ("analyze", s3)])
    (h1 : s1.status = .completed) (h2 : s2.status = .running) :
    (failWith X e).steps
      = [("preprocess", s1), ("transcribe", failUpd e s2), ("analyze", s3)]
    ∧ (failWith X e).status = PyVal.str "failed"
    ∧ (failWith X e).error = PyVal.str e := by
  unfold failWith
  have hfind : ({ X with status := PyVal.str "failed", error := PyVal.str e }
        : PipelineState).steps.find? (fun p => p.2.status == StepStatus.running)
      = some ("transcribe", s2) := by
    show X.steps.find? _ = _
    rw [h]
    simp [List.find?_cons, h1, h2]
  simp only [hfind]
  refine ⟨?_, rfl, rfl⟩
  show (modifyStep _ "transcribe" (failUpd e)).steps = _
  exact modify3_tra _ _ _ _ _ h

theorem failWith_ana (X : PipelineState) (e : String) (s1 s2 s3 : StepState)
    (h : X.steps = [("preprocess", s1), ("transcribe", s2), ("analyze", s3)])
    (h1 : s1.status = .completed) (h2 : s2.status = .completed)
    (h3 : s3.status = .running) :
    (failWith X e).steps
      = [("preprocess", s1), ("transcribe", s2), ("analyze", failUpd e s3)]
    ∧ (failWith X e).status = PyVal.str "failed"
    ∧ (failWith X e).error = PyVal.str e := by
  unfold failWith
  have hfind : ({ X with status := PyVal.str "failed", error := PyVal.str e }
        : PipelineState).steps.find? (fun p => p.2.status == StepStatus.running)
      = some ("analyze", s3) := by
    show X.steps.find? _ = _
    rw [h]
    simp [List.find?_cons, h1, h2, h3]
  simp only [hfind]
  refine ⟨?_, rfl, rfl⟩
  show (modifyStep _ "analyze" (failUpd e)).steps = _
  exact modify3_ana _ _ _ _ _ h

theorem leafFinish (R : PipelineState) (S : String) (L : List StepStatus)
    (hstat : R.status = PyVal.str S) (hss : stepStatuses R = L)
    (h1 : S = "completed" → L = [.completed, .completed, .completed])
    (h2 : S = "failed" → StepStatus.running ∉ L)
    (h3 : L.count .running ≤ 1) :
    (R.status = PyVal.str "completed" →
      stepStatuses R = [.completed, .completed, .completed])
    ∧ (R.status = PyVal.str "failed" →
      StepStatus.running ∉ stepStatuses R)
    ∧ (R.status ∈ [PyVal.str "completed", PyVal.str "failed",
        PyVal.str "cancelled"] →
      (stepStatuses R).count StepStatus.running ≤ 1) := by
  refine ⟨?_, ?_, fun _ => by rw [hss]; exact h3⟩
  · intro h
    have hS : S = "completed" := PyVal.str.inj (hstat.symm.trans h)
    rw [hss]
    exact h1 hS
  · intro h
    have hS : S = "failed" := PyVal.str.inj (hstat.symm.trans h)
    rw [hss]
    exact h2 hS

/-- C1 (amended).  For a worker-created job record, after `run_pipeline`
returns: a `completed` record has all three stages `COMPLETED`; a `failed`
record has no `RUNNING` stage (the failing stage was flipped to `FAILED`); and
any terminal record has AT MOST ONE `RUNNING` stage — but a `cancelled` record
CAN retain a `RUNNING` stage (the stage whose executor had returned when the
cancellation was observed; see the counterexample), so the claim's blanket "no
StageState is Running once terminal" does not hold.  After the terminal
record is stored, later bookkeeping does not mutate it: the worker's
`finally` block leaves the jobs table untouched, and `cancel_job` on a
non-running record mutates nothing. -/
theorem c1_amended :
    (∀ (canc : Nat → Bool) (pre tra ana : StageRun) (ctx : Ctx)
      (jid fn : String) (fh : Option String) (fid : Option Int),
      ((run_pipeline_rec canc pre tra ana ctx fh fid
          (freshState jid fn fh fid)).1.status = PyVal.str "completed" →
        stepStatuses (run_pipeline_rec canc pre tra ana ctx fh fid
          (freshState jid fn fh fid)).1
          = [.completed, .completed, .completed])
      ∧ ((run_pipeline_rec canc pre tra ana ctx fh fid
          (freshState jid fn fh fid)).1.status = PyVal.str "failed" →
        StepStatus.running ∉ stepStatuses (run_pipeline_rec canc pre tra ana
          ctx fh fid (freshState jid fn fh fid)).1)
      ∧ ((run_pipeline_rec canc pre tra ana ctx fh fid
          (freshState jid fn fh fid)).1.status
          ∈ [PyVal.str "completed", PyVal.str "failed", PyVal.str "cancelled"] →
        (stepStatuses (run_pipeline_rec canc pre tra ana ctx fh fid
          (freshState jid fn fh fid)).1).count StepStatus.running ≤ 1))
    ∧ (∀ (job_id : String) (st : PipelineState) (g : RunnerState),
        (workerFinalize job_id st g).jobs = g.jobs)
    ∧ (∀ (g : RunnerState) (j : String) (st : PipelineState),
        lookupJob g j = some st → st.status ≠ PyVal.str "running" →
        cancel_job j g = (false, g)) := by
  refine ⟨?_, ?_, ?_⟩
  · intro canc pre tra ana ctx jid fn fh fid
    have hsteps := stStart_fresh_steps jid fn fh fh fid fid
    have hres := stStart_fresh_result jid fn fh fh fid fid
    have hsp : (stageUpd pre (defStep "Preprocess audio")).status
        = StepStatus.running :=
      (stageUpd_facts pre (defStep "Preprocess audio") rfl).2.1
    have hstt : (stageUpd tra (defStep "Transcribe (Whisper)")).status
        = StepStatus.running :=
      (stageUpd_facts tra (defStep "Transcribe (Whisper)") rfl).2.1
    have hsa : (stageUpd ana (defStep "Extract topics & truth statements")).status
        = StepStatus.running :=
      (stageUpd_facts ana (defStep "Extract topics & truth statements") rfl).2.1
    cases hb0 : canc 0 with
    | true =>
      have hpr : run_pipeline_rec canc pre tra ana ctx fh fid
            (freshState jid fn fh fid)
          = (cancelStop (stStart fh fid (freshState jid fn fh fid)),
             Option.none) := by
        rw [run_pipeline_rec_eq, run_try_c0 canc pre tra ana ctx _ hb0]
      rw [hpr]
      refine leafFinish _ "cancelled" [.pending, .pending, .pending] rfl ?_
        (fun hh => absurd hh (by decide)) (fun hh => absurd hh (by decide))
        (by decide)
      show (stStart fh fid (freshState jid fn fh fid)).steps.map _ = _
      rw [hsteps]
      rfl
    | false =>
      have hX0 : (modifyStep (stStart fh fid (freshState jid fn fh fid))
            "preprocess" (stageUpd pre)).steps
          = [("preprocess", stageUpd pre (defStep "Preprocess audio")),
             ("transcribe", defStep "Transcribe (Whisper)"),
             ("analyze", defStep "Extract topics & truth statements")] :=
        modify3_pre _ _ _ _ _ hsteps
      cases hpe : pre.err with
      | some e =>
        have hFW := failWith_pre (modifyStep (stStart fh fid
            (freshState jid fn fh fid)) "preprocess" (stageUpd pre)) e _ _ _
            hX0 hsp
        have hpr : run_pipeline_rec canc pre tra ana ctx fh fid
              (freshState jid fn fh fid)
            = (failWith (modifyStep (stStart fh fid (freshState jid fn fh fid))
                "preprocess" (stageUpd pre)) e, some e) := by
          rw [run_pipeline_rec_eq, run_try_preFail canc pre tra ana ctx _ e hb0
            hpe (by simp [getStep3_pre _ _ _ _ hsteps])]
        rw [hpr]
        refine leafFinish _ "failed" [.failed, .pending, .pending] hFW.2.1 ?_
          (fun hh => absurd hh (by decide)) (fun _ => by decide) (by decide)
        show (failWith _ e).steps.map _ = _
        rw [hFW.1]
        rfl
      | none =>
        cases hb1 : canc 1 with
        | true =>
          have hpr : run_pipeline_rec canc pre tra ana ctx fh fid
                (freshState jid fn fh fid)
              = (cancelStop (modifyStep (stStart fh fid
                  (freshState jid fn fh fid)) "preprocess" (stageUpd pre)),
                 Option.none) := by
            rw [run_pipeline_rec_eq, run_try_c1 canc pre tra ana ctx _ hb0 hb1
              hpe (by simp [getStep3_pre _ _ _ _ hsteps])]
          rw [hpr]
          refine leafFinish _ "cancelled" [.running, .pending, .pending] rfl ?_
            (fun hh => absurd hh (by decide)) (fun hh => absurd hh (by decide))
            (by decide)
          show (modifyStep (stStart fh fid (freshState jid fn fh fid))
              "preprocess" (stageUpd pre)).steps.map _ = _
          rw [hX0]
          simp only [List.map_cons, List.map_nil, hsp]
          rfl
        | false =>
          have hS1 := stage1_steps pre (stStart fh fid
            (freshState jid fn fh fid)) [] _ _ _ hsteps
          cases hb2 : canc 2 with
          | true =>
            have hpr : run_pipeline_rec canc pre tra ana ctx fh fid
                  (freshState jid fn fh fid)
                = (cancelStop (stage1 pre (stStart fh fid
                    (freshState jid fn fh fid)) []), Option.none) := by
              rw [run_pipeline_rec_eq, run_try_c2 canc pre tra ana ctx _ _ _ _
                [] hsteps hres hb0 hb1 hb2 hpe]
            rw [hpr]
            refine leafFinish _ "cancelled" [.completed, .pending, .pending]
              rfl ?_ (fun hh => absurd hh (by decide))
              (fun hh => absurd hh (by decide)) (by decide)
            show (stage1 pre (stStart fh fid (freshState jid fn fh fid))
                []).steps.map _ = _
            rw [hS1]
            rfl
          | false =>
            have hX1 : (modifyStep (stage1 pre (stStart fh fid
                  (freshState jid fn fh fid)) []) "transcribe"
                  (stageUpd tra)).steps
                = [("preprocess", okUpd dPre (stageUpd pre
                    (defStep "Preprocess audio"))),
                   ("transcribe", stageUpd tra (defStep "Transcribe (Whisper)")),
                   ("analyze", defStep "Extract topics & truth statements")] :=
              modify3_tra _ _ _ _ _ hS1
            cases hte : tra.err with
            | some e =>
              have hFW := failWith_tra (modifyStep (stage1 pre (stStart fh fid
                  (freshState jid fn fh fid)) []) "transcribe" (stageUpd tra))
                  e _ _ _ hX1 rfl hstt
              have hpr : run_pipeline_rec canc pre tra ana ctx fh fid
                    (freshState jid fn fh fid)
                  = (failWith (modifyStep (stage1 pre (stStart fh fid
                      (freshState jid fn fh fid)) []) "transcribe"
                      (stageUpd tra)) e, some e) := by
                rw [run_pipeline_rec_eq, run_try_traFail canc pre tra ana ctx
                  _ _ _ _ [] e hsteps hres hb0 hb1 hb2 hpe hte]
              rw [hpr]
              refine leafFinish _ "failed" [.completed, .failed, .pending]
                hFW.2.1 ?_ (fun hh => absurd hh (by decide))
                (fun _ => by decide) (by decide)
              show (failWith _ e).steps.map _ = _
              rw [hFW.1]
              rfl
            | none =>
              cases hb3 : canc 3 with
              | true =>
                have hpr : run_pipeline_rec canc pre tra ana ctx fh fid
                      (freshState jid fn fh fid)
                    = (cancelStop (modifyStep (stage1 pre (stStart fh fid
                        (freshState jid fn fh fid)) []) "transcribe"
                        (stageUpd tra)), Option.none) := by
                  rw [run_pipeline_rec_eq, run_try_c3 canc pre tra ana ctx
                    _ _ _ _ [] hsteps hres hb0 hb1 hb2 hb3 hpe hte]
                rw [hpr]
                refine leafFinish _ "cancelled"
                  [.completed, .running, .pending] rfl ?_
                  (fun hh => absurd hh (by decide))
                  (fun hh => absurd hh (by decide)) (by decide)
                show (modifyStep (stage1 pre (stStart fh fid
                    (freshState jid fn fh fid)) []) "transcribe"
                    (stageUpd tra)).steps.map _ = _
                rw [hX1]
                simp only [List.map_cons, List.map_nil, hstt]
                rfl
              | false =>
                have hS2 := stage2_steps tra ctx (stage1 pre (stStart fh fid
                  (freshState jid fn fh fid)) []) (rAud []) _ _ _ hS1
                cases hb4 : canc 4 with
                | true =>
                  have hpr : run_pipeline_rec canc pre tra ana ctx fh fid
                        (freshState jid fn fh fid)
                      = (cancelStop (stage2 tra ctx (stage1 pre (stStart fh fid
                          (freshState jid fn fh fid)) []) (rAud [])),
                         Option.none) := by
                    rw [run_pipeline_rec_eq, run_try_c4 canc pre tra ana ctx
                      _ _ _ _ [] hsteps hres hb0 hb1 hb2 hb3 hb4 hpe hte]
                  rw [hpr]
                  refine leafFinish _ "cancelled"
                    [.completed, .completed, .pending] rfl ?_
                    (fun hh => absurd hh (by decide))
                    (fun hh => absurd hh (by decide)) (by decide)
                  show (stage2 tra ctx (stage1 pre (stStart fh fid
                      (freshState jid fn fh fid)) []) (rAud [])).steps.map _ = _
                  rw [hS2]
                  rfl
                | false =>
                  have hX2 : (modifyStep (stage2 tra ctx (stage1 pre (stStart
                        fh fid (freshState jid fn fh fid)) []) (rAud []))
                        "analyze" (stageUpd ana)).steps
                      = [("preprocess", okUpd dPre (stageUpd pre
                          (defStep "Preprocess audio"))),
                         ("transcribe", okUpd (dTra ctx) (stageUpd tra
                          (defStep "Transcribe (Whisper)"))),
                         ("analyze", stageUpd ana
                          (defStep "Extract topics & truth statements"))] :=
                    modify3_ana _ _ _ _ _ hS2
                  cases hae : ana.err with
                  | some e =>
                    have hFW := failWith_ana (modifyStep (stage2 tra ctx
                        (stage1 pre (stStart fh fid (freshState jid fn fh fid))
                        []) (rAud [])) "analyze" (stageUpd ana)) e _ _ _ hX2
                        rfl rfl hsa
                    have hpr : run_pipeline_rec canc pre tra ana ctx fh fid
                          (freshState jid fn fh fid)
                        = (failWith (modifyStep (stage2 tra ctx (stage1 pre
                            (stStart fh fid (freshState jid fn fh fid)) [])
                            (rAud [])) "analyze" (stageUpd ana)) e, some e) := by
                      rw [run_pipeline_rec_eq, run_try_anaFail canc pre tra ana
                        ctx _ _ _ _ [] e hsteps hres hb0 hb1 hb2 hb3 hb4 hpe
                        hte hae]
                    rw [hpr]
                    refine leafFinish _ "failed"
                      [.completed, .completed, .failed] hFW.2.1 ?_
                      (fun hh => absurd hh (by decide)) (fun _ => by decide)
                      (by decide)
                    show (failWith _ e).steps.map _ = _
                    rw [hFW.1]
                    rfl
                  | none =>
                    cases hb5 : canc 5 with
                    | true =>
                      have hpr : run_pipeline_rec canc pre tra ana ctx fh fid
                            (freshState jid fn fh fid)
                          = (cancelStop (modifyStep (stage2 tra ctx (stage1 pre
                              (stStart fh fid (freshState jid fn fh fid)) [])
                              (rAud [])) "analyze" (stageUpd ana)),
                             Option.none) := by
                        rw [run_pipeline_rec_eq, run_try_c5 canc pre tra ana
                          ctx _ _ _ _ [] hsteps hres hb0 hb1 hb2 hb3 hb4 hb5
                          hpe hte hae]
                      rw [hpr]
                      refine leafFinish _ "cancelled"
                        [.completed, .completed, .running] rfl ?_
                        (fun hh => absurd hh (by decide))
                        (fun hh => absurd hh (by decide)) (by decide)
                      show (modifyStep (stage2 tra ctx (stage1 pre (stStart fh
                          fid (freshState jid fn fh fid)) []) (rAud []))
                          "analyze" (stageUpd ana)).steps.map _ = _
                      rw [hX2]
                      simp only [List.map_cons, List.map_nil, hsa]
                      rfl
                    | false =>
                      have hS3 := stage3_steps ana ctx (stage2 tra ctx
                        (stage1 pre (stStart fh fid (freshState jid fn fh fid))
                        []) (rAud [])) (res2 ctx (rAud [])) _ _ _ hS2
                      have hpr : run_pipeline_rec canc pre tra ana ctx fh fid
                            (freshState jid fn fh fid)
                          = ({ stage3 ana ctx (stage2 tra ctx (stage1 pre
                              (stStart fh fid (freshState jid fn fh fid)) [])
                              (rAud [])) (res2 ctx (rAud [])) with
                              status := PyVal.str "completed" },
                             Option.none) := by
                        rw [run_pipeline_rec_eq, run_try_success canc pre tra
                          ana ctx _ _ _ _ [] hsteps hres hb0 hb1 hb2 hb3 hb4
                          hb5 hpe hte hae]
                      rw [hpr]
                      refine leafFinish _ "completed"
                        [.completed, .completed, .completed] rfl ?_
                        (fun _ => rfl) (fun hh => absurd hh (by decide))
                        (by decide)
                      show (stage3 ana ctx (stage2 tra ctx (stage1 pre
                          (stStart fh fid (freshState jid fn fh fid)) [])
                          (rAud [])) (res2 ctx (rAud []))).steps.map _ = _
                      rw [hS3]
                      rfl
  · intro job_id st g
    unfold workerFinalize
    split <;> rfl
  · intro g j st hl hs
    unfold cancel_job
    simp only [hl]
    simp [hs]

/-- The cancellation oracle that first observes a cancel request at
checkpoint 1 (right after the preprocess executor returns). -/
def cAt1 : Nat → Bool := fun i => decide (1 ≤ i)

/-- C1 counterexample: cancellation observed at the checkpoint right after the
preprocess executor returns (runner.py 474) yields a TERMINAL record (status
`cancelled`) whose preprocess StageState still has status `RUNNING` — the
record was frozen mid-stage without the stage ever leaving `RUNNING`,
contradicting "once a JobRecord reaches a terminal status, no StageState has
status Running". -/
theorem c1_counterexample :
    (run_pipeline_rec cAt1 noRun noRun noRun ctx0 Option.none Option.none
        (freshState "j" "f.wav" Option.none Option.none)).1.status
      ∈ [PyVal.str "completed", PyVal.str "failed", PyVal.str "cancelled"]
    ∧ (run_pipeline_rec cAt1 noRun noRun noRun ctx0 Option.none Option.none
        (freshState "j" "f.wav" Option.none Option.none)).1.status
      = PyVal.str "cancelled"
    ∧ (getStep (run_pipeline_rec cAt1 noRun noRun noRun ctx0 Option.none
        Option.none (freshState "j" "f.wav" Option.none Option.none)).1
        "preprocess").map (fun s => s.status) = some StepStatus.running :=
  ⟨by decide, by decide, by decide⟩

/-- A runner state holding one terminal (completed) job, for witnesses. -/
def gDone : RunnerState :=
  { initRunner with jobs := [("jobA", { mkState "jobA" "f.wav" Option.none
      Option.none with status := PyVal.str "completed" })] }

/-- Witness for C1's amended theorem at concrete inputs. -/
theorem c1_amended_witness :
    stepStatuses (run_pipeline_rec cFalse noRun noRun noRun ctx0 Option.none
        Option.none (freshState "j" "f.wav" Option.none Option.none)).1
      = [.completed, .completed, .completed]
    ∧ (workerFinalize "jobA" (freshState "jobA" "f.wav" Option.none
        Option.none) initRunner).jobs = initRunner.jobs
    ∧ cancel_job "jobA" gDone = (false, gDone) :=
  ⟨(c1_amended.1 cFalse noRun noRun noRun ctx0 "j" "f.wav" Option.none
      Option.none).1 rfl,
   c1_amended.2.1 "jobA" (freshState "jobA" "f.wav" Option.none Option.none)
     initRunner,
   c1_amended.2.2 gDone "jobA" _ rfl (by decide)⟩

/-- C4: `cancel_job(jobId)` returns true and sets `cancelRequested = true`
exactly when a record with that id exists and its status is `running`; in
every other case it returns false and the whole runner state is unchanged.
(The inner `_current_job_id` re-lookup at runner.py 300-302 repeats the same
dict access and can never change the outcome.) -/
theorem c4_cancel_job_spec (j : String) (g : RunnerState) :
    ((cancel_job j g).1 = true ↔
      ∃ st, lookupJob g j = some st ∧ st.status = PyVal.str "running")
    ∧ (∀ st, lookupJob g j = some st → st.status = PyVal.str "running" →
        cancel_job j g
          = (true, { g with
              jobs := setKey g.jobs j { st with cancelled := true } }))
    ∧ ((cancel_job j g).1 = false → (cancel_job j g).2 = g) := by
  cases hl : lookupJob g j with
  | none =>
    have hmain : cancel_job j g = (false, g) := by
      unfold cancel_job
      simp only [hl]
      cases hc : g.current_job_id with
      | none => simp
      | some cjid =>
        by_cases hcj : cjid ≠ "" ∧ cjid = j
        · have hj : ¬(j = "") := by
            intro h
            exact hcj.1 (by rw [hcj.2, h])
          simp [hcj, hj, hl]
        · simp [hcj]
    refine ⟨?_, ?_, ?_⟩
    · rw [hmain]
      constructor
      · intro h
        exact Bool.noConfusion h
      · rintro ⟨st, hst, _⟩
        exact Option.noConfusion hst
    · intro st hst
      exact Option.noConfusion hst
    · intro _
      rw [hmain]
  | some st =>
    by_cases hs : st.status = PyVal.str "running"
    · have hmain : cancel_job j g
          = (true, { g with
              jobs := setKey g.jobs j { st with cancelled := true } }) := by
        unfold cancel_job
        simp [hl, hs]
      refine ⟨?_, ?_, ?_⟩
      · constructor
        · intro _
          exact ⟨st, rfl, hs⟩
        · intro _
          rw [hmain]
      · intro st' hst' hs'
        cases hst'
        exact hmain
      · intro hfalse
        rw [hmain] at hfalse
        exact Bool.noConfusion hfalse
    · have hmain : cancel_job j g = (false, g) := by
        unfold cancel_job
        simp [hl, hs]
      refine ⟨?_, ?_, ?_⟩
      · rw [hmain]
        constructor
        · intro h
          exact Bool.noConfusion h
        · rintro ⟨st', hst', hs'⟩
          cases hst'
          exact absurd hs' hs
      · intro st' hst' hs'
        cases hst'
        exact absurd hs' hs
      · intro _
        rw [hmain]

/-- A record whose status is `running`, for witnesses. -/
def stRunning : PipelineState :=
  { mkState "jobA" "f.wav" Option.none Option.none with
      status := PyVal.str "running" }

/-- A runner state holding one running job, for witnesses. -/
def gRun : RunnerState := { initRunner with jobs := [("jobA", stRunning)] }

/-- Witness for C4 at a concrete input: cancelling the running job succeeds and
sets the flag; cancelling a terminal job returns false and changes nothing. -/
theorem c4_cancel_job_spec_witness :
    (lookupJob gRun "jobA" = some stRunning
      ∧ stRunning.status = PyVal.str "running"
      ∧ cancel_job "jobA" gRun
        = (true, { gRun with
            jobs := setKey gRun.jobs "jobA"
              { stRunning with cancelled := true } }))
    ∧ ((cancel_job "jobA" gDone).1 = false ∧ (cancel_job "jobA" gDone).2 = gDone) :=
  ⟨⟨rfl, rfl, (c4_cancel_job_spec "jobA" gRun).2.1 stRunning rfl rfl⟩,
   ⟨by decide, (c4_cancel_job_spec "jobA" gDone).2.2 (by decide)⟩⟩

/-- Written from the spec's words, for comparison with the code (refinement):
`peekPending()` returns a "snapshot of all items whose status is `Pending`, in
FIFO order". -/
def peekPendingSpec (g : RunnerState) : List (List (String × PyVal)) :=
  (g.queue.filter (fun i => i.status == "pending")).map pendingEntry

/-- C3 counterexample: in the reachable state where the single submitted item
has been claimed by the worker (status flipped to `running`, still in
`_queue`), `get_queue_state()["pending"]` still contains that item — the code
maps over ALL of `_queue` with no status filter (runner.py 221-230) — so the
snapshot differs from the spec's pending-only list and contains an entry whose
status is `running`. -/
theorem c3_counterexample :
    (get_queue_state (workerClaim "job1" (add_to_queue "q1" "up" "f.wav" "H1"
        Option.none initRunner)).1).pending
      ≠ peekPendingSpec (workerClaim "job1" (add_to_queue "q1" "up" "f.wav"
        "H1" Option.none initRunner)).1
    ∧ ∃ e ∈ (get_queue_state (workerClaim "job1" (add_to_queue "q1" "up"
        "f.wav" "H1" Option.none initRunner)).1).pending,
        pyGet e "status" = PyVal.str "running" := by
  constructor
  · decide
  · decide

theorem claimQueue_filter (newId : String) :
    ∀ (l : List QueueItem) (item : QueueItem) (l' : List QueueItem),
      claimQueue newId l = some (item, l') →
      ∃ q rest, l.filter (fun i => i.status == "pending") = q :: rest
        ∧ l'.filter (fun i => i.status == "pending") = rest := by
  intro l
  induction l with
  | nil =>
    intro item l' h
    exact Option.noConfusion h
  | cons q l ih =>
    intro item l' h
    by_cases hq : q.status = "pending"
    · unfold claimQueue at h
      simp only [hq, if_pos] at h
      cases h
      refine ⟨q, l.filter (fun i => i.status == "pending"), ?_, ?_⟩
      · simp [List.filter_cons, hq]
      · simp [List.filter_cons]
    · unfold claimQueue at h
      rw [if_neg hq] at h
      cases hrec : claimQueue newId l with
      | none => rw [hrec] at h; exact Option.noConfusion h
      | some p =>
        obtain ⟨item0, rest0⟩ := p
        rw [hrec] at h
        simp only at h
        injection h with h'
        have hi : item0 = item := congrArg Prod.fst h'
        have hr : (q :: rest0 : List QueueItem) = l' := congrArg Prod.snd h'
        obtain ⟨q0, rest, h1, h2⟩ := ih item0 rest0 hrec
        refine ⟨q0, rest, ?_, ?_⟩
        · rw [List.filter_cons]
          simp [hq, h1]
        · rw [← hr, List.filter_cons]
          simp [hq, h2]

/-- C3 amended: `get_queue_state()["pending"]` is the whole `_queue` rendered
in order — every item, including a claimed (`running`) one, with its `status`
field exposed — not only the `Pending` items; the snapshot mutates nothing
(it is a pure function of the state).  FIFO is preserved: `add_to_queue`
appends to the tail of the snapshot, and a successful worker claim removes
exactly the head of the pending-only view, leaving the rest in order. -/
theorem c3_amended :
    (∀ g : RunnerState, (get_queue_state g).pending = g.queue.map pendingEntry)
    ∧ (∀ (qid up fn h : String) (fid : Option Int) (g : RunnerState),
        (get_queue_state (add_to_queue qid up fn h fid g)).pending
          = (get_queue_state g).pending
            ++ [pendingEntry (mkQueueItem qid up fn h fid)])
    ∧ (∀ (newId : String) (g : RunnerState) (item : QueueItem)
        (queue' : List QueueItem),
        claimQueue newId g.queue = some (item, queue') →
        ∃ q, peekPendingSpec g
          = q :: peekPendingSpec { g with queue := queue' }) := by
  refine ⟨fun g => rfl, ?_, ?_⟩
  · intro qid up fn h fid g
    show (g.queue ++ [_]).map pendingEntry = _
    rw [List.map_append]
    rfl
  · intro newId g item queue' hclaim
    obtain ⟨q0, rest, h1, h2⟩ := claimQueue_filter newId g.queue item queue' hclaim
    refine ⟨pendingEntry q0, ?_⟩
    unfold peekPendingSpec
    simp only
    rw [h1, h2]
    rfl

/-- The runner state after one submission, for witnesses. -/
def g3q : RunnerState :=
  add_to_queue "q1" "up" "f.wav" "H1" Option.none initRunner

/-- The submitted item once claimed by the worker, for witnesses. -/
def qItem1Run : QueueItem :=
  { mkQueueItem "q1" "up" "f.wav" "H1" Option.none with
      status := "running", job_id := some "job1" }

/-- Witness for C3's amended theorem at concrete inputs. -/
theorem c3_amended_witness :
    ((get_queue_state initRunner).pending = initRunner.queue.map pendingEntry)
    ∧ ((get_queue_state g3q).pending
      = (get_queue_state initRunner).pending
        ++ [pendingEntry (mkQueueItem "q1" "up" "f.wav" "H1" Option.none)])
    ∧ (claimQueue "job1" g3q.queue = some (qItem1Run, [qItem1Run])
      ∧ ∃ q, peekPendingSpec g3q
          = q :: peekPendingSpec { g3q with queue := [qItem1Run] }) :=
  ⟨c3_amended.1 initRunner,
   c3_amended.2.1 "q1" "up" "f.wav" "H1" Option.none initRunner,
   by decide,
   c3_amended.2.2 "job1" g3q qItem1Run [qItem1Run] (by decide)⟩

theorem mem_addHash (hs : List PyVal) (v w : PyVal) :
    w ∈ addHash hs v ↔ w ∈ hs ∨ w = v := by
  unfold addHash
  split
  · constructor
    · exact Or.inl
    · rintro (h | rfl)
      · exact h
      · assumption
  · simp [List.mem_append]

/-- The fresh record the worker publishes for the first submitted file. -/
def stFreshA : PipelineState :=
  freshState "jobA" "f.wav" (some "H1") Option.none

/-- The claimed queue item of the first submission. -/
def qARun : QueueItem :=
  { mkQueueItem "q1" "up" "f.wav" "H1" Option.none with
      status := "running", job_id := some "jobA" }

/-- The runner state right after the worker claimed the first submission. -/
def gA1 : RunnerState :=
  { jobs := [("jobA", stFreshA)], queue := [qARun], processed_hashes := [],
    job_to_hash := [], queue_paused := false, current_job_id := some "jobA" }

/-- The first job's record after its successful run. -/
def stDoneA : PipelineState :=
  { stage3 noRun ctx0 (stage2 noRun ctx0 (stage1 noRun
      (stStart (some "H1") Option.none stFreshA) []) (rAud []))
      (res2 ctx0 (rAud [])) with status := PyVal.str "completed" }

theorem claimA_eq :
    workerClaim "jobA" (add_to_queue "q1" "up" "f.wav" "H1" Option.none
      initRunner) = (gA1, some "jobA") := rfl

theorem runA_eq :
    run_pipeline_rec cFalse noRun noRun noRun ctx0 (some "H1") Option.none
      stFreshA = (stDoneA, Option.none) := by
  rw [run_pipeline_rec_eq]
  rw [show stFreshA = freshState "jobA" "f.wav" (some "H1") Option.none from rfl]
  rw [run_try_success cFalse noRun noRun noRun ctx0 _ _ _
    _ [] (stStart_fresh_steps "jobA" "f.wav" (some "H1") (some "H1")
    Option.none Option.none) (stStart_fresh_result "jobA" "f.wav" (some "H1")
    (some "H1") Option.none Option.none) rfl rfl rfl rfl rfl rfl rfl rfl rfl]
  rfl

theorem runA_g_eq :
    run_pipeline_g cFalse noRun noRun noRun ctx0 "jobA" "f.wav" (some "H1")
      Option.none gA1
      = ({ gA1 with jobs := setKey gA1.jobs "jobA" stDoneA }, Option.none) := by
  unfold run_pipeline_g
  simp only [show lookupJob gA1 "jobA" = some stFreshA from rfl, runA_eq]

/-- The runner state after the first job completed and was finalized. -/
def gB : RunnerState :=
  { jobs := [("jobA", stDoneA)], queue := [],
    processed_hashes := [PyVal.str "H1"],
    job_to_hash := [("jobA", PyVal.str "H1")], queue_paused := false,
    current_job_id := Option.none }

theorem iterA_eq :
    workerIteration "jobA" cFalse noRun noRun noRun ctx0 (add_to_queue "q1"
      "up" "f.wav" "H1" Option.none initRunner) = gB := by
  unfold workerIteration
  simp only [claimA_eq]
  simp only [show lookupJob gA1 "jobA" = some stFreshA from rfl]
  simp only [show stFreshA.file_hash = PyVal.str "H1" from rfl,
    show stFreshA.original_filename = PyVal.str "f.wav" from rfl,
    show stFreshA.folder_id = (Option.none : Option Int) from rfl]
  simp only [show (if ("H1" : String) = "" then (Option.none : Option String)
    else some "H1") = some "H1" from rfl]
  rw [runA_g_eq]
  rfl

set_option maxHeartbeats 1000000 in
/-- C8 (amended), in one theorem below: the dedup index is keyed by job.
`workerFinalize` adds the record's hash to the processed set exactly when the
record completed with a truthy hash; `remove_job` discards the hash recorded
for THAT job unconditionally — even when another completed job shares it; and
the single-job scenario submit → complete → delete reads false, true, false. -/
theorem c8_amended :
    (∀ (g : RunnerState) (j h : String) (st : PipelineState),
      is_already_processed h (workerFinalize j st g) = true ↔
        (is_already_processed h g = true
          ∨ (st.status = PyVal.str "completed" ∧ st.file_hash = PyVal.str h
              ∧ h ≠ "")))
    ∧ (∀ (g : RunnerState) (j h : String),
        lookupJob g j ≠ Option.none →
        lookupKey g.job_to_hash j = some (PyVal.str h) → h ≠ "" →
        is_already_processed h (remove_job j g).2 = false)
    ∧ (is_already_processed "H1"
        (add_to_queue "q1" "up" "f.wav" "H1" Option.none initRunner) = false
      ∧ is_already_processed "H1" (workerIteration "jobA" cFalse noRun noRun
          noRun ctx0 (add_to_queue "q1" "up" "f.wav" "H1" Option.none
          initRunner)) = true
      ∧ is_already_processed "H1" (remove_job "jobA" (workerIteration "jobA"
          cFalse noRun noRun noRun ctx0 (add_to_queue "q1" "up" "f.wav" "H1"
          Option.none initRunner))).2 = false) := by
  refine ⟨?_, ?_, rfl, ?_, ?_⟩
  · intro g j h st
    unfold workerFinalize is_already_processed
    by_cases hc : st.status = PyVal.str "completed" ∧ st.file_hash.truthy
    · simp only [if_pos hc]
      simp only [decide_eq_true_eq]
      rw [mem_addHash]
      constructor
      · rintro (hm | he)
        · exact Or.inl hm
        · refine Or.inr ⟨hc.1, he.symm, ?_⟩
          intro hE
          have := hc.2
          rw [← he, hE] at this
          exact absurd this (by decide)
      · rintro (hm | ⟨_, hfh, _⟩)
        · exact Or.inl hm
        · exact Or.inr hfh.symm
    · simp only [if_neg hc]
      simp only [decide_eq_true_eq]
      constructor
      · exact Or.inl
      · rintro (hm | ⟨hs, hfh, hne⟩)
        · exact hm
        · exact absurd ⟨hs, by rw [hfh]; simp [PyVal.truthy, hne]⟩ hc
  · intro g j h hjob hhash hne
    unfold remove_job
    cases hl : lookupJob g j with
    | none => exact absurd hl hjob
    | some st =>
      simp only
      unfold is_already_processed popKey
      rw [hhash]
      have htr : (PyVal.str h).truthy = true := by
        simp [PyVal.truthy, hne]
      simp only [htr, if_pos]
      simp only [decide_eq_false_iff_not]
      intro hmem
      rw [List.mem_filter] at hmem
      simp at hmem
  · rw [iterA_eq]
    rfl
  · rw [iterA_eq]
    rfl

/-- Witness for C8's amended theorem: the delete leg applied at the concrete
post-completion state. -/
theorem c8_amended_witness :
    lookupJob gB "jobA" ≠ Option.none
    ∧ lookupKey gB.job_to_hash "jobA" = some (PyVal.str "H1")
    ∧ is_already_processed "H1" (remove_job "jobA" gB).2 = false :=
  ⟨fun h => Option.noConfusion h, rfl,
   c8_amended.2.1 gB "jobA" "H1" (fun h => Option.noConfusion h) rfl
     (by decide)⟩

/-- The fresh record the worker publishes for the second submitted file (same
hash `H1`). -/
def stFreshB : PipelineState :=
  freshState "jobB" "g.wav" (some "H1") Option.none

/-- The claimed queue item of the second submission. -/
def qBRun : QueueItem :=
  { mkQueueItem "q2" "up2" "g.wav" "H1" Option.none with
      status := "running", job_id := some "jobB" }

/-- `gB` with the second file submitted. -/
def gB2 : RunnerState :=
  add_to_queue "q2" "up2" "g.wav" "H1" Option.none gB

/-- The runner state right after the worker claimed the second submission. -/
def gC1 : RunnerState :=
  { jobs := [("jobA", stDoneA), ("jobB", stFreshB)], queue := [qBRun],
    processed_hashes := [PyVal.str "H1"],
    job_to_hash := [("jobA", PyVal.str "H1")], queue_paused := false,
    current_job_id := some "jobB" }

/-- The second job's record after its successful run. -/
def stDoneB : PipelineState :=
  { stage3 noRun ctx0 (stage2 noRun ctx0 (stage1 noRun
      (stStart (some "H1") Option.none stFreshB) []) (rAud []))
      (res2 ctx0 (rAud [])) with status := PyVal.str "completed" }

theorem claimB_eq : workerClaim "jobB" gB2 = (gC1, some "jobB") := rfl

theorem runB_eq :
    run_pipeline_rec cFalse noRun noRun noRun ctx0 (some "H1") Option.none
      stFreshB = (stDoneB, Option.none) := by
  rw [run_pipeline_rec_eq]
  rw [show stFreshB = freshState "jobB" "g.wav" (some "H1") Option.none from rfl]
  rw [run_try_success cFalse noRun noRun noRun ctx0 _ _ _
    _ [] (stStart_fresh_steps "jobB" "g.wav" (some "H1") (some "H1")
    Option.none Option.none) (stStart_fresh_result "jobB" "g.wav" (some "H1")
    (some "H1") Option.none Option.none) rfl rfl rfl rfl rfl rfl rfl rfl rfl]
  rfl

theorem runB_g_eq :
    run_pipeline_g cFalse noRun noRun noRun ctx0 "jobB" "g.wav" (some "H1")
      Option.none gC1
      = ({ gC1 with jobs := setKey gC1.jobs "jobB" stDoneB }, Option.none) := by
  unfold run_pipeline_g
  simp only [show lookupJob gC1 "jobB" = some stFreshB from rfl, runB_eq]

/-- The runner state after both jobs completed. -/
def gC : RunnerState :=
  { jobs := [("jobA", stDoneA), ("jobB", stDoneB)], queue := [],
    processed_hashes := [PyVal.str "H1"],
    job_to_hash := [("jobA", PyVal.str "H1"), ("jobB", PyVal.str "H1")],
    queue_paused := false, current_job_id := Option.none }

theorem iterB_eq :
    workerIteration "jobB" cFalse noRun noRun noRun ctx0 gB2 = gC := by
  unfold workerIteration
  simp only [claimB_eq]
  simp only [show lookupJob gC1 "jobB" = some stFreshB from rfl]
  simp only [show stFreshB.file_hash = PyVal.str "H1" from rfl,
    show stFreshB.original_filename = PyVal.str "g.wav" from rfl,
    show stFreshB.folder_id = (Option.none : Option Int) from rfl]
  simp only [show (if ("H1" : String) = "" then (Option.none : Option String)
    else some "H1") = some "H1" from rfl]
  rw [runB_g_eq]
  rfl

/-- C8 counterexample to the claimed biconditional: submit TWO files with the
same hash `H1` (dedup is advisory only), let both complete, then delete the
first job.  `remove_job` discards `H1` from the processed set although the
second job — completed, hash `H1`, never deleted — still exists, so
`is_already_processed("H1")` is false while a completed job with hash `H1`
remains, refuting "true exactly when some job with that hash reached completed
and has not since been deleted". -/
theorem c8_counterexample :
    workerIteration "jobB" cFalse noRun noRun noRun ctx0 (add_to_queue "q2"
      "up2" "g.wav" "H1" Option.none (workerIteration "jobA" cFalse noRun
      noRun noRun ctx0 (add_to_queue "q1" "up" "f.wav" "H1" Option.none
      initRunner))) = gC
    ∧ ((lookupJob (remove_job "jobA" gC).2 "jobB").map
        (fun s => (s.status, s.file_hash)))
      = some (PyVal.str "completed", PyVal.str "H1")
    ∧ is_already_processed "H1" (remove_job "jobA" gC).2 = false := by
  refine ⟨?_, ?_, ?_⟩
  · rw [iterA_eq]
    exact iterB_eq
  · rfl
  · rfl

/-- The persisted observation of one stage entry: key, status, message,
detail, progress, eta (exactly the per-stage fields the round-trip claim
lists; `start_time` is intentionally not persisted). -/
def stepObs (p : String × StepState) :
    String × StepStatus × PyVal × PyVal × PyVal × PyVal :=
  (p.1, p.2.status, p.2.message, p.2.detail, p.2.progress, p.2.eta_seconds)

theorem stepStatus_roundtrip (σ : StepStatus) :
    StepStatus.fromValue σ.value = some σ := by
  cases σ <;> rfl

theorem stepStatusOf_value (σ : StepStatus) :
    stepStatusOf (PyVal.str σ.value) = σ := by
  show (StepStatus.fromValue σ.value).getD StepStatus.pending = σ
  rw [stepStatus_roundtrip]
  rfl

theorem stepFromDict_roundtrip (k : String) (v : StepState) :
    stepObs (k, stepFromDict k [("name", v.name),
      ("status", .str v.status.value), ("message", v.message),
      ("detail", v.detail), ("progress", v.progress),
      ("eta_seconds", v.eta_seconds)]) = stepObs (k, v) := by
  show (k, stepStatusOf (PyVal.str v.status.value), v.message, v.detail,
      v.progress, v.eta_seconds)
    = (k, v.status, v.message, v.detail, v.progress, v.eta_seconds)
  rw [stepStatusOf_value]

/-- `from_dict` on a dict whose (truthiness-defaulted) `steps` field is a
dict: the only raise point is passed and reconstruction succeeds. -/
theorem from_dict_dict_steps (d : List (String × PyVal))
    (kvs : List (String × PyVal))
    (h : (if (pyGet d "steps").truthy then pyGet d "steps" else .dict [])
      = PyVal.dict kvs) :
    PipelineState.from_dict d = Except.ok
      { job_id := pyGetD d "job_id" (.str "")
        original_filename := pyGetD d "original_filename" (.str "")
        status := pyGetD d "status" (.str "pending")
        steps := kvs.filterMap (fun p =>
          match p.2 with
          | .dict kvs => some (p.1, stepFromDict p.1 kvs)
          | _ => Option.none)
        result := if (pyGet d "result").truthy then pyGet d "result"
                  else .dict []
        error := pyGet d "error"
        cancelled := false
        file_hash := pyGet d "file_hash"
        folder_id := match pyGet d "folder_id" with
          | PyVal.none => Option.none
          | v => pyToInt v } := by
  unfold PipelineState.from_dict
  rw [h]
  rfl

theorem steps_roundtrip (l : List (String × StepState)) :
    ((l.map (fun p => (p.1, stepToDict p.2))).filterMap (fun p =>
      match p.2 with
      | PyVal.dict kvs => some (p.1, stepFromDict p.1 kvs)
      | _ => Option.none)).map stepObs = l.map stepObs := by
  induction l with
  | nil => rfl
  | cons p l ih =>
    obtain ⟨k, v⟩ := p
    show ((k, stepFromDict k [("name", v.name),
        ("status", .str v.status.value), ("message", v.message),
        ("detail", v.detail), ("progress", v.progress),
        ("eta_seconds", v.eta_seconds)]) :: _).map stepObs = _
    rw [List.map_cons, List.map_cons, stepFromDict_roundtrip, ih]

/-- C5: reconstructing a terminal JobRecord from its persisted dict
(`from_dict (to_persist_dict s)`) succeeds and reproduces the status, every
stage's persisted fields (status, message, detail, progress, eta), the result
payload and the file hash.  The `resultWF` hypothesis is the representation
invariant of the embedding: in the Python program `result` is always a dict,
so it is either truthy or the empty dict. -/
theorem c5_roundtrip (s : PipelineState)
    (_hterm : s.status ∈ [PyVal.str "completed", PyVal.str "failed",
      PyVal.str "cancelled"])
    (hresWF : s.result.truthy = true ∨ s.result = PyVal.dict []) :
    ∃ t, PipelineState.from_dict s.to_persist_dict = Except.ok t
      ∧ t.status = s.status
      ∧ t.steps.map stepObs = s.steps.map stepObs
      ∧ t.result = s.result
      ∧ t.file_hash = s.file_hash := by
  have hstep : pyGet s.to_persist_dict "steps"
      = PyVal.dict (s.steps.map (fun p => (p.1, stepToDict p.2))) := rfl
  have hresget : pyGet s.to_persist_dict "result" = s.result := rfl
  have hcond : (if (pyGet s.to_persist_dict "steps").truthy
        then pyGet s.to_persist_dict "steps" else .dict [])
      = PyVal.dict (s.steps.map (fun p => (p.1, stepToDict p.2))) := by
    rw [hstep]
    cases hsE : s.steps with
    | nil => rfl
    | cons p l => rfl
  refine ⟨_, from_dict_dict_steps s.to_persist_dict _ hcond, rfl, ?_, ?_, rfl⟩
  · exact steps_roundtrip s.steps
  · show (if (pyGet s.to_persist_dict "result").truthy
        then pyGet s.to_persist_dict "result" else .dict []) = s.result
    rw [hresget]
    rcases hresWF with h | h
    · simp [h]
    · rw [h]
      rfl

/-- Witness for C5 at a concrete terminal record: the final record of a
completed concrete run. -/
theorem c5_roundtrip_witness :
    stDoneA.status ∈ [PyVal.str "completed", PyVal.str "failed",
      PyVal.str "cancelled"]
    ∧ (stDoneA.result.truthy = true ∨ stDoneA.result = PyVal.dict [])
    ∧ ∃ t, PipelineState.from_dict stDoneA.to_persist_dict = Except.ok t
      ∧ t.status = stDoneA.status
      ∧ t.steps.map stepObs = stDoneA.steps.map stepObs
      ∧ t.result = stDoneA.result
      ∧ t.file_hash = stDoneA.file_hash :=
  ⟨by decide, Or.inl rfl,
   c5_roundtrip stDoneA (by decide) (Or.inl rfl)⟩

/-- Complete case analysis of `from_dict`: it returns the reconstructed
record when the (truthiness-defaulted) `steps` field is a dict, and raises
`AttributeError` otherwise. -/
theorem from_dict_cases (d : List (String × PyVal)) :
    PipelineState.from_dict d
      = match (if (pyGet d "steps").truthy then pyGet d "steps"
          else PyVal.dict []) with
        | PyVal.dict kvs => Except.ok
            { job_id := pyGetD d "job_id" (.str "")
              original_filename := pyGetD d "original_filename" (.str "")
              status := pyGetD d "status" (.str "pending")
              steps := kvs.filterMap (fun p =>
                match p.2 with
                | .dict kvs => some (p.1, stepFromDict p.1 kvs)
                | _ => Option.none)
              result := if (pyGet d "result").truthy then pyGet d "result"
                        else .dict []
              error := pyGet d "error"
              cancelled := false
              file_hash := pyGet d "file_hash"
              folder_id := match pyGet d "folder_id" with
                | PyVal.none => Option.none
                | v => pyToInt v }
        | _ => Except.error "AttributeError: object has no attribute items"
    := by
  cases hC : (if (pyGet d "steps").truthy then pyGet d "steps"
      else PyVal.dict []) with
  | dict kvs => rw [from_dict_dict_steps d kvs hC]
  | none => unfold PipelineState.from_dict; rw [hC]; rfl
  | bool b => unfold PipelineState.from_dict; rw [hC]; rfl
  | int n => unfold PipelineState.from_dict; rw [hC]; rfl
  | float q => unfold PipelineState.from_dict; rw [hC]; rfl
  | str s => unfold PipelineState.from_dict; rw [hC]; rfl
  | list l => unfold PipelineState.from_dict; rw [hC]; rfl

/-- A string that is none of the five enum values is rejected by the
`StepStatus(...)` constructor (the `ValueError` branch). -/
theorem fromValue_default (s : String) (h : ∀ σ : StepStatus, s ≠ σ.value) :
    StepStatus.fromValue s = Option.none := by
  unfold StepStatus.fromValue
  split
  · exact absurd rfl (h .pending)
  · exact absurd rfl (h .running)
  · exact absurd rfl (h .completed)
  · exact absurd rfl (h .failed)
  · exact absurd rfl (h .skipped)
  · rfl

/-- The reconstructed steps list keeps exactly the dict-valued entries of the
persisted `steps` mapping. -/
theorem parse_steps_length (kvs : List (String × PyVal)) :
    (kvs.filterMap (fun p =>
      match p.2 with
      | PyVal.dict k => some (p.1, stepFromDict p.1 k)
      | _ => Option.none)).length
    = (kvs.filter (fun p => p.2.isDict)).length := by
  induction kvs with
  | nil => rfl
  | cons p l ih =>
    obtain ⟨k, v⟩ := p
    cases v <;>
      simp [List.filterMap_cons, List.filter_cons, PyVal.isDict, ih]

/-- C10 counterexample: `from_dict` is NOT total on dict inputs.  When the
persisted `steps` field is a truthy non-dict value, `steps_dict.items()`
(runner.py 84-85) raises `AttributeError` — the claim's "recovery never
raises on a record that is valid JSON but has corrupt field values" fails on
`{"steps": "corrupt"}`, which is valid JSON. -/
theorem c10_counterexample :
    PipelineState.from_dict [("steps", PyVal.str "corrupt")]
      = Except.error "AttributeError: object has no attribute items" := rfl

/-- C10 amended: `from_dict` raises exactly when the `steps` field is truthy
and not a dict; on every other dict input it silently repairs malformed
fields: a stage status that is not one of the five enum strings becomes
`PENDING`, a `folder_id` that `int()` rejects becomes `None`, non-dict stage
entries are dropped (exactly the dict-valued entries survive), and the empty
dict reconstructs to the dataclass defaults. -/
theorem c10_amended :
    (∀ d : List (String × PyVal),
      (∃ e, PipelineState.from_dict d = Except.error e)
        ↔ ((pyGet d "steps").truthy = true
            ∧ (pyGet d "steps").isDict = false))
    ∧ (∀ v : PyVal, (∀ σ : StepStatus, v ≠ PyVal.str σ.value) →
        stepStatusOf v = StepStatus.pending)
    ∧ (∀ d st, PipelineState.from_dict d = Except.ok st →
        pyToInt (pyGet d "folder_id") = Option.none →
        st.folder_id = Option.none)
    ∧ (∀ d kvs st, pyGet d "steps" = PyVal.dict kvs →
        PipelineState.from_dict d = Except.ok st →
        st.steps.length = (kvs.filter (fun p => p.2.isDict)).length)
    ∧ PipelineState.from_dict []
        = Except.ok (mkState "" "" Option.none Option.none) := by
  refine ⟨?_, ?_, ?_, ?_, rfl⟩
  · intro d
    rw [from_dict_cases d]
    by_cases ht : (pyGet d "steps").truthy = true
    · rw [if_pos ht]
      cases hv : pyGet d "steps" with
      | dict kvs =>
        constructor
        · rintro ⟨e, he⟩
          exact Except.noConfusion he
        · rintro ⟨-, hid⟩
          exact Bool.noConfusion hid
      | none =>
        rw [hv] at ht
        exact absurd ht (by decide)
      | bool b =>
        rw [hv] at ht
        exact ⟨fun _ => ⟨ht, rfl⟩, fun _ => ⟨_, rfl⟩⟩
      | int n =>
        rw [hv] at ht
        exact ⟨fun _ => ⟨ht, rfl⟩, fun _ => ⟨_, rfl⟩⟩
      | float q =>
        rw [hv] at ht
        exact ⟨fun _ => ⟨ht, rfl⟩, fun _ => ⟨_, rfl⟩⟩
      | str s =>
        rw [hv] at ht
        exact ⟨fun _ => ⟨ht, rfl⟩, fun _ => ⟨_, rfl⟩⟩
      | list l =>
        rw [hv] at ht
        exact ⟨fun _ => ⟨ht, rfl⟩, fun _ => ⟨_, rfl⟩⟩
    · rw [if_neg ht]
      constructor
      · rintro ⟨e, he⟩
        exact Except.noConfusion he
      · rintro ⟨h1, -⟩
        exact absurd h1 ht
  · intro v h
    cases v with
    | str s =>
      show (StepStatus.fromValue s).getD StepStatus.pending
        = StepStatus.pending
      rw [fromValue_default s (fun σ hs => h σ (by rw [hs]))]
      rfl
    | none => rfl
    | bool b => rfl
    | int n => rfl
    | float q => rfl
    | list l => rfl
    | dict kvs => rfl
  · intro d st hok hnone
    rw [from_dict_cases d] at hok
    cases hC : (if (pyGet d "steps").truthy then pyGet d "steps"
        else PyVal.dict []) with
    | dict kvs =>
      rw [hC] at hok
      have hst := Except.ok.inj hok
      rw [← hst]
      show (match pyGet d "folder_id" with
        | PyVal.none => Option.none
        | v => pyToInt v) = Option.none
      cases hv : pyGet d "folder_id" with
      | none => rfl
      | bool b => rw [hv] at hnone; exact hnone
      | int n => rw [hv] at hnone; exact hnone
      | float q => rw [hv] at hnone; exact hnone
      | str s => rw [hv] at hnone; exact hnone
      | list l => rw [hv] at hnone; exact hnone
      | dict kvs2 => rw [hv] at hnone; exact hnone
    | none => rw [hC] at hok; exact Except.noConfusion hok
    | bool b => rw [hC] at hok; exact Except.noConfusion hok
    | int n => rw [hC] at hok; exact Except.noConfusion hok
    | float q => rw [hC] at hok; exact Except.noConfusion hok
    | str s => rw [hC] at hok; exact Except.noConfusion hok
    | list l => rw [hC] at hok; exact Except.noConfusion hok
  · intro d kvs st h1 hok
    rw [from_dict_cases d] at hok
    by_cases ht : (pyGet d "steps").truthy = true
    · rw [if_pos ht, h1] at hok
      have hst := Except.ok.inj hok
      rw [← hst]
      exact parse_steps_length kvs
    · rw [if_neg ht] at hok
      have hst := Except.ok.inj hok
      rw [h1] at ht
      have hk : kvs = [] := by
        cases kvs with
        | nil => rfl
        | cons a l => exact absurd rfl ht
      subst hk
      rw [← hst]
      rfl

/-- The record `from_dict` reconstructs in the C10 witness's mixed-entries
instance: only the dict-valued stage entry survives. -/
def stMixedC10 : PipelineState :=
  { mkState "" "" Option.none Option.none with
      steps := [("a", stepFromDict "a" [])] }

/-- Witness for C10's amended theorem at concrete inputs: the raise
characterization on a truthy non-dict `steps`, status repair on the string
"bogus", folder repair on an unconvertible list value, and the drop of a non-dict
stage entry. -/
theorem c10_amended_witness :
    ((∃ e, PipelineState.from_dict [("steps", PyVal.str "x")]
        = Except.error e)
      ↔ ((pyGet [("steps", PyVal.str "x")] "steps").truthy = true
          ∧ (pyGet [("steps", PyVal.str "x")] "steps").isDict = false))
    ∧ stepStatusOf (PyVal.str "bogus") = StepStatus.pending
    ∧ (mkState "" "" Option.none Option.none).folder_id = Option.none
    ∧ stMixedC10.steps.length
        = ([("a", PyVal.dict []), ("b", PyVal.str "junk")].filter
            (fun p => p.2.isDict)).length :=
  ⟨c10_amended.1 [("steps", PyVal.str "x")],
   c10_amended.2.1 (PyVal.str "bogus") (fun σ => by cases σ <;> decide),
   c10_amended.2.2.1 [("folder_id", PyVal.list [])]
     (mkState "" "" Option.none Option.none) rfl rfl,
   c10_amended.2.2.2.1
     [("steps", PyVal.dict [("a", PyVal.dict []), ("b", PyVal.str "junk")])]
     [("a", PyVal.dict []), ("b", PyVal.str "junk")] stMixedC10 rfl rfl⟩

/-- A minimal terminal (completed) record. -/
def stTermC : PipelineState :=
  { mkState "jobA" "f.wav" Option.none Option.none with
      status := PyVal.str "completed" }

/-- C9 counterexample: `_save_job_state` CAN raise to its caller.  The
`JOBS_STATE_DIR.mkdir(parents=True, exist_ok=True)` call (runner.py 140) runs
OUTSIDE both `try` blocks, so on a terminal record a directory-creation
failure propagates out of `_save_job_state` (and would crash the worker's
`finally` block), refuting "it never raises to its caller". -/
theorem c9_counterexample :
    save_job_state true false false stTermC
      = Except.error "OSError: mkdir failed" := rfl

/-- C9 amended: `_save_job_state` writes nothing (and cannot raise) when the
record's status is not terminal — the status check precedes the `mkdir`; when
the directory creation succeeds, a failure of the durable JSON write and a
failure of the metadata upsert are each swallowed by their own `try` block,
independently, and the in-memory record is untouched (the function never
writes to it); only a failure of the `mkdir` at line 140 propagates. -/
theorem c9_amended (st : PipelineState) (m dF dbF : Bool) :
    (st.status ∉ [PyVal.str "completed", PyVal.str "failed",
        PyVal.str "cancelled"] →
      save_job_state m dF dbF st = Except.ok (Option.none, Option.none))
    ∧ (st.status ∈ [PyVal.str "completed", PyVal.str "failed",
        PyVal.str "cancelled"] →
      save_job_state false dF dbF st
        = Except.ok
            ((if dF then Option.none else some st.to_persist_dict),
             (if dbF then Option.none
              else some { job_id := st.job_id, folder_id := st.folder_id,
                          original_filename := st.original_filename,
                          file_hash := st.file_hash,
                          status := st.status }))) := by
  constructor
  · intro h
    unfold save_job_state
    rw [if_neg h]
  · intro h
    unfold save_job_state
    rw [if_pos h]
    rfl

/-- Witness for C9's amended theorem at concrete inputs: a pending record
writes nothing, a completed record with both I/O failures still returns
normally with both writes swallowed. -/
theorem c9_amended_witness :
    (mkState "jobA" "f.wav" Option.none Option.none).status
      ∉ [PyVal.str "completed", PyVal.str "failed", PyVal.str "cancelled"]
    ∧ save_job_state true true true
        (mkState "jobA" "f.wav" Option.none Option.none)
      = Except.ok (Option.none, Option.none)
    ∧ stTermC.status ∈ [PyVal.str "completed", PyVal.str "failed",
        PyVal.str "cancelled"]
    ∧ save_job_state false true true stTermC
      = Except.ok (Option.none, Option.none) :=
  ⟨by decide,
   (c9_amended (mkState "jobA" "f.wav" Option.none Option.none) true true
     true).1 (by decide),
   by decide,
   (c9_amended stTermC true true true).2 (by decide)⟩

end AudioPipeline
